import Mathlib

/-!
Verification of the soroban-governor-backend event pipeline.

The Go source is shallowly embedded:
* decimal tally strings and `math/big.Int` arithmetic (`SetString` base 10,
  `Add`, `String`) become `parseBigInt` / `intToString` over `Int`;
* the SQL tables (`history`, `proposals`, `votes`, `status`) become finite
  maps `String → Option _`, with the `ON CONFLICT` clauses of the insert
  statements reproduced in `insertEvent` / `upsertProposal` / `insertVote`;
* `Indexer.ApplyEvent` becomes `applyEvent`, one branch per Go `switch` case;
* the XDR event decoding in `internal/governor/events.go` is embedded over an
  `ScVal` model of the contract-event value alphabet.
-/

namespace Governor

/-! ### Decimal strings (`math/big.Int` embedding)

`digitChar d` is the ASCII digit for `d < 10`.  `natChars n` is the canonical
(most-significant-first, no leading zero) decimal digit list of `n`, computed
with the usual fuel construction so it reduces in the kernel.  `intToString`
embeds `big.Int.String`: canonical decimal, `-` prefix for negatives.
`parseBigInt` embeds `big.Int.SetString(s, 10)`: an optional `+`/`-` sign
followed by at least one ASCII digit (leading zeros allowed); anything else
is rejected.
-/

def digitChar (d : Nat) : Char := Char.ofNat (48 + d)

def natToCharsAux : Nat → Nat → List Char → List Char
  | 0, _, acc => acc
  | fuel+1, n, acc =>
    let acc' := digitChar (n % 10) :: acc
    if n < 10 then acc' else natToCharsAux fuel (n / 10) acc'

def natChars (n : Nat) : List Char := natToCharsAux (n + 1) n []

def intToString (i : Int) : String :=
  match i with
  | .ofNat n => ⟨natChars n⟩
  | .negSucc m => ⟨'-' :: natChars (m + 1)⟩

def isDigitChar (c : Char) : Bool := 48 ≤ c.toNat && c.toNat ≤ 57

def allDigits (cs : List Char) : Bool := cs.all isDigitChar

/-- Value of a most-significant-first digit list. -/
def digitsVal : List Char → Nat
  | [] => 0
  | c :: cs => (c.toNat - 48) * 10 ^ cs.length + digitsVal cs

def parseBigNat (cs : List Char) : Option Nat :=
  if cs ≠ [] ∧ allDigits cs then some (digitsVal cs) else none

def parseBigInt (s : String) : Option Int :=
  if s.data.head? = some '-' then (parseBigNat s.data.tail).map (fun n => -(n : Int))
  else if s.data.head? = some '+' then (parseBigNat s.data.tail).map Int.ofNat
  else (parseBigNat s.data).map Int.ofNat

example : parseBigInt "12314122341234" = some 12314122341234 := by decide
example : parseBigInt "-20000000000" = some (-20000000000) := by decide
example : parseBigInt "" = none := by decide
example : parseBigInt "12a4" = none := by decide
example : parseBigInt "+07" = some 7 := by decide
example : intToString 12334122341234 = "12334122341234" := by decide
example : intToString (-19999999900) = "-19999999900" := by decide
example : intToString 0 = "0" := by decide

lemma natToCharsAux_append (n : Nat) : ∀ fuel acc, 0 < fuel → n < 10 ^ fuel →
    natToCharsAux fuel n acc = natToCharsAux (n + 1) n [] ++ acc := by
  induction n using Nat.strong_induction_on with
  | _ n ih =>
    intro fuel acc hf hn
    obtain ⟨f, rfl⟩ : ∃ f, fuel = f + 1 := ⟨fuel - 1, by omega⟩
    by_cases h10 : n < 10
    · simp [natToCharsAux, h10]
    · have hf1 : 0 < f := by
        rcases Nat.eq_zero_or_pos f with h | h
        · subst h; simp at hn; omega
        · exact h
      have hdiv : n / 10 < 10 ^ f := by
        rw [Nat.div_lt_iff_lt_mul (by norm_num)]
        calc n < 10 ^ (f + 1) := hn
        _ = 10 ^ f * 10 := by ring
      have hlt : n / 10 < n := Nat.div_lt_self (by omega) (by norm_num)
      have hn10 : n / 10 < 10 ^ n := lt_of_lt_of_le hlt (le_of_lt (Nat.lt_pow_self (by norm_num) n))
      have h1 : natToCharsAux (f + 1) n acc
          = natToCharsAux f (n / 10) (digitChar (n % 10) :: acc) := by
        simp [natToCharsAux, h10]
      have h2 : natToCharsAux (n + 1) n []
          = natToCharsAux n (n / 10) [digitChar (n % 10)] := by
        conv_lhs => rw [natToCharsAux]
        simp [h10]
      rw [h1, h2, ih (n / 10) hlt f _ hf1 hdiv,
        ih (n / 10) hlt n _ (by omega) hn10, List.append_assoc]
      rfl

lemma natChars_lt10 {n : Nat} (h : n < 10) : natChars n = [digitChar n] := by
  simp [natChars, natToCharsAux, h, Nat.mod_eq_of_lt h]

lemma natChars_ge10 {n : Nat} (h : 10 ≤ n) :
    natChars n = natChars (n / 10) ++ [digitChar (n % 10)] := by
  have h2 : natChars n = natToCharsAux n (n / 10) [digitChar (n % 10)] := by
    unfold natChars
    conv_lhs => rw [natToCharsAux]
    simp [Nat.not_lt.2 h]
  rw [h2, natToCharsAux_append (n / 10) n _ (by omega)
    (lt_of_lt_of_le (Nat.div_lt_self (by omega) (by norm_num))
      (le_of_lt (Nat.lt_pow_self (by norm_num) n)))]
  rfl

lemma digitChar_toNat {d : Nat} (h : d < 10) : (digitChar d).toNat = 48 + d := by
  interval_cases d <;> rfl

lemma isDigitChar_digitChar {d : Nat} (h : d < 10) : isDigitChar (digitChar d) = true := by
  interval_cases d <;> rfl

lemma natChars_ne_nil (n : Nat) : natChars n ≠ [] := by
  by_cases h : n < 10
  · rw [natChars_lt10 h]; simp
  · rw [natChars_ge10 (by omega)]; simp

lemma allDigits_natChars (n : Nat) : allDigits (natChars n) = true := by
  induction n using Nat.strong_induction_on with
  | _ n ih =>
    by_cases h : n < 10
    · rw [natChars_lt10 h]
      simp [allDigits, isDigitChar_digitChar h]
    · rw [natChars_ge10 (by omega)]
      have h1 := ih (n / 10) (Nat.div_lt_self (by omega) (by norm_num))
      simp only [allDigits, List.all_append] at h1 ⊢
      simp [h1, isDigitChar_digitChar (Nat.mod_lt n (by norm_num))]

lemma digitsVal_append_singleton (xs : List Char) (c : Char) :
    digitsVal (xs ++ [c]) = 10 * digitsVal xs + (c.toNat - 48) := by
  induction xs with
  | nil => simp [digitsVal]
  | cons x xs ih =>
    have hlen : (xs ++ [c]).length = xs.length + 1 := by simp
    simp only [List.cons_append, digitsVal, ih, List.append_eq, hlen, Nat.pow_succ]
    ring

lemma digitsVal_natChars (n : Nat) : digitsVal (natChars n) = n := by
  induction n using Nat.strong_induction_on with
  | _ n ih =>
    by_cases h : n < 10
    · rw [natChars_lt10 h]
      simp [digitsVal, digitChar_toNat h]
    · rw [natChars_ge10 (by omega), digitsVal_append_singleton,
        ih (n / 10) (Nat.div_lt_self (by omega) (by norm_num)),
        digitChar_toNat (Nat.mod_lt n (by norm_num))]
      omega

lemma parseBigNat_natChars (n : Nat) : parseBigNat (natChars n) = some n := by
  simp [parseBigNat, natChars_ne_nil, allDigits_natChars, digitsVal_natChars]

lemma natChars_head_digit (n : Nat) {c : Char} {cs : List Char}
    (h : natChars n = c :: cs) : isDigitChar c = true := by
  have := allDigits_natChars n
  rw [h] at this
  simp only [allDigits, List.all_cons, Bool.and_eq_true] at this
  exact this.1

/-- Round trip: `big.Int.SetString(x.String(), 10)` recovers `x`. -/
theorem parseBigInt_intToString (i : Int) : parseBigInt (intToString i) = some i := by
  cases i with
  | ofNat n =>
    obtain ⟨c, cs, hc⟩ : ∃ c cs, natChars n = c :: cs := by
      cases h : natChars n with
      | nil => exact absurd h (natChars_ne_nil n)
      | cons c cs => exact ⟨c, cs, rfl⟩
    have hd := natChars_head_digit n hc
    have hcm : c ≠ '-' := by
      intro h; rw [h] at hd; simp [isDigitChar] at hd
    have hcp : c ≠ '+' := by
      intro h; rw [h] at hd; simp [isDigitChar] at hd
    simp only [intToString, parseBigInt, hc, List.head?_cons]
    rw [if_neg (by simpa using hcm), if_neg (by simpa using hcp)]
    have : parseBigNat (c :: cs) = some n := hc ▸ parseBigNat_natChars n
    simp [this]
  | negSucc m =>
    simp only [intToString, parseBigInt, List.head?_cons, if_pos rfl, List.tail_cons]
    simp [parseBigNat_natChars (m + 1), Int.negSucc_eq]

lemma intToString_ne_empty (i : Int) : intToString i ≠ "" := by
  cases i with
  | ofNat n =>
    intro h
    exact natChars_ne_nil n (congrArg String.data h)
  | negSucc m =>
    intro h
    exact List.cons_ne_nil _ _ (congrArg String.data h)

/-! ### Data model (`internal/governor`)

`Proposal`, `Vote` and the three event-payload structs are the Go structs
field for field (`uint32`/`int64` become `Nat`/`Int`; the JSON-serialized
`EventData` string of a `GovernorEvent` is carried in already-parsed form,
see `EventData`). -/

structure Proposal where
  proposalKey : String
  contractId : String
  proposalId : Nat
  proposer : String
  status : Nat
  title : String
  description : String
  action : String
  voteStart : Nat
  voteEnd : Nat
  votesFor : String
  votesAgainst : String
  votesAbstain : String
  executionUnlock : Nat
  executionTxHash : String
deriving DecidableEq, Repr

structure Vote where
  txHash : String
  contractId : String
  proposalId : Nat
  voter : String
  support : Nat
  amount : String
  ledgerSeq : Nat
  ledgerCloseTime : Int
deriving DecidableEq, Repr

/-- The vote counts for a proposal (`VoteCount` in `votes.go`). -/
structure VoteCount where
  forVotes : String
  against : String
  abstain : String
deriving DecidableEq, Repr

/-- Payload of a `proposal_created` event (`ProposalCreatedData`). -/
structure ProposalCreatedData where
  proposer : String
  title : String
  desc : String
  action : String
  voteStart : Nat
  voteEnd : Nat
deriving DecidableEq, Repr

/-- Payload of a `proposal_voting_closed` event (`ProposalVotingClosedData`). -/
structure ProposalVotingClosedData where
  status : Nat
  eta : Nat
  finalVotes : VoteCount
deriving DecidableEq, Repr

/-- Payload of a `vote_cast` event (`VoteCastData`). -/
structure VoteCastData where
  voter : String
  support : Nat
  amount : String
deriving DecidableEq, Repr

/-- The `EventData` JSON string of a `GovernorEvent`, in parsed form.
`json.Unmarshal` of the stored payload string into the branch's target
struct is a pure function of the string; the embedding carries its result:
a payload that does not unmarshal into the target type of the branch that
consumes it is `.malformed`, `.empty` stands for `"{}"`/empty payloads. -/
inductive EventData where
  | created (d : ProposalCreatedData)
  | votingClosed (d : ProposalVotingClosedData)
  | voteCast (d : VoteCastData)
  | empty
  | malformed
deriving DecidableEq, Repr

structure GovernorEvent where
  eventId : String
  contractId : String
  proposalId : Nat
  eventType : String
  eventData : EventData
  txHash : String
  ledgerSeq : Nat
  ledgerCloseTime : Int
deriving DecidableEq, Repr

/-- `EncodeProposalKey`: `fmt.Sprintf("%s-%d", contractId, proposalId)`. -/
def encodeProposalKey (contractId : String) (proposalId : Nat) : String :=
  contractId ++ "-" ++ ⟨natChars proposalId⟩

/-- `NewProposalFromProposalCreatedEvent` (`proposals.go`): requires a
`proposal_created` event whose data unmarshals; initial status `Active(0)`,
tallies `"0"`. -/
def newProposalFromProposalCreatedEvent (e : GovernorEvent) : Option Proposal :=
  if e.eventType ≠ "proposal_created" then none
  else match e.eventData with
    | .created d =>
      some { proposalKey := encodeProposalKey e.contractId e.proposalId
             contractId := e.contractId
             proposalId := e.proposalId
             proposer := d.proposer
             status := 0
             title := d.title
             description := d.desc
             action := d.action
             voteStart := d.voteStart
             voteEnd := d.voteEnd
             votesFor := "0"
             votesAgainst := "0"
             votesAbstain := "0"
             executionUnlock := 0
             executionTxHash := "" }
    | _ => none

/-- `NewVoteFromVoteCastEvent` (`votes.go`). -/
def newVoteFromVoteCastEvent (e : GovernorEvent) : Option Vote :=
  if e.eventType ≠ "vote_cast" then none
  else match e.eventData with
    | .voteCast d =>
      some { txHash := e.txHash
             contractId := e.contractId
             proposalId := e.proposalId
             voter := d.voter
             support := d.support
             amount := d.amount
             ledgerSeq := e.ledgerSeq
             ledgerCloseTime := e.ledgerCloseTime }
    | _ => none

/-! ### Store (`internal/db/store.go`)

Each table is a map from its primary key; the `ON CONFLICT` clauses are
reproduced exactly: history and votes inserts are `DO NOTHING` on conflict,
the proposal upsert updates only the mutable columns. -/

structure StoreState where
  history : String → Option GovernorEvent
  proposals : String → Option Proposal
  votes : String → Option Vote

/-- `InsertEvent`: `INSERT ... ON CONFLICT (event_id) DO NOTHING`. -/
def insertEvent (h : String → Option GovernorEvent) (e : GovernorEvent) :
    String → Option GovernorEvent :=
  match h e.eventId with
  | some _ => h
  | none => fun k => if k = e.eventId then some e else h k

/-- `UpsertProposal`: insert on absence; on conflict update only
status / tallies / execution fields (see the `DO UPDATE SET` list). -/
def upsertProposal (t : String → Option Proposal) (p : Proposal) :
    String → Option Proposal :=
  fun k =>
    if k = p.proposalKey then
      match t p.proposalKey with
      | none => some p
      | some old => some { old with
          status := p.status
          votesFor := p.votesFor
          votesAgainst := p.votesAgainst
          votesAbstain := p.votesAbstain
          executionUnlock := p.executionUnlock
          executionTxHash := p.executionTxHash }
    else t k

/-- `InsertVote`: `INSERT ... ON CONFLICT (tx_hash) DO NOTHING`. -/
def insertVote (t : String → Option Vote) (v : Vote) : String → Option Vote :=
  match t v.txHash with
  | some _ => t
  | none => fun k => if k = v.txHash then some v else t k

/-! ### The applier (`internal/indexer/indexer.go`, `ApplyEvent`) -/

/-- The error outcomes of `ApplyEvent` (each constructor is one of its
`fmt.Errorf` returns; the spec calls all of them ApplicationError). -/
inductive ApplyError where
  | proposalExists
  | proposalMissing
  | unmarshalFailed
  | invalidAmount
  | invalidTally
  | invalidSupport
  | invalidEventType
deriving DecidableEq, Repr

/-- The aggregate tables (`proposals`, `votes`) that the `switch` of
`ApplyEvent` reads and writes; the history table is only written by the
insert preceding the switch and is handled in `applyEvent`. -/
structure AggState where
  proposals : String → Option Proposal
  votes : String → Option Vote

/-- The body of `ApplyEvent` after the history insert: look the proposal up
and dispatch on the event type, one branch per Go `switch` case. -/
def applyEventCore (s : AggState) (e : GovernorEvent) : AggState × Option ApplyError :=
  let key := encodeProposalKey e.contractId e.proposalId
  if e.eventType = "proposal_created" then
    match s.proposals key with
    | some _ => (s, some .proposalExists)
    | none =>
      match newProposalFromProposalCreatedEvent e with
      | none => (s, some .unmarshalFailed)
      | some p => ({ s with proposals := upsertProposal s.proposals p }, none)
  else if e.eventType = "proposal_canceled" then
    match s.proposals key with
    | none => (s, some .proposalMissing)
    | some p =>
      if p.status ≠ 0 then (s, none)
      else ({ s with proposals := upsertProposal s.proposals { p with status := 5 } }, none)
  else if e.eventType = "proposal_voting_closed" then
    match s.proposals key with
    | none => (s, some .proposalMissing)
    | some p =>
      if p.status ≠ 0 then (s, none)
      else match e.eventData with
        | .votingClosed d =>
          ({ s with proposals := upsertProposal s.proposals { p with
              status := d.status
              votesFor := d.finalVotes.forVotes
              votesAgainst := d.finalVotes.against
              votesAbstain := d.finalVotes.abstain
              executionUnlock := d.eta } }, none)
        | _ => (s, some .unmarshalFailed)
  else if e.eventType = "proposal_executed" then
    match s.proposals key with
    | none => (s, some .proposalMissing)
    | some p =>
      if p.status = 4 then (s, none)
      else ({ s with proposals := upsertProposal s.proposals { p with
          status := 4
          executionTxHash := e.txHash } }, none)
  else if e.eventType = "proposal_expired" then
    match s.proposals key with
    | none => (s, some .proposalMissing)
    | some p =>
      if p.status ≠ 0 ∧ p.status ≠ 1 then (s, none)
      else ({ s with proposals := upsertProposal s.proposals { p with status := 3 } }, none)
  else if e.eventType = "vote_cast" then
    match s.proposals key with
    | none => (s, some .proposalMissing)
    | some p =>
      if p.status ≠ 0 then (s, none)
      else match e.eventData with
        | .voteCast d =>
          match s.votes e.txHash with
          | some _ => (s, none)
          | none =>
            match parseBigInt d.amount with
            | none => (s, some .invalidAmount)
            | some amountBig =>
              if d.support = 0 then
                match parseBigInt p.votesAgainst with
                | none => (s, some .invalidTally)
                | some total =>
                  let p' := { p with votesAgainst := intToString (total + amountBig) }
                  match newVoteFromVoteCastEvent e with
                  | none => (s, some .unmarshalFailed)
                  | some v =>
                    ({ s with votes := insertVote s.votes v
                              proposals := upsertProposal s.proposals p' }, none)
              else if d.support = 1 then
                match parseBigInt p.votesFor with
                | none => (s, some .invalidTally)
                | some total =>
                  let p' := { p with votesFor := intToString (total + amountBig) }
                  match newVoteFromVoteCastEvent e with
                  | none => (s, some .unmarshalFailed)
                  | some v =>
                    ({ s with votes := insertVote s.votes v
                              proposals := upsertProposal s.proposals p' }, none)
              else if d.support = 2 then
                match parseBigInt p.votesAbstain with
                | none => (s, some .invalidTally)
                | some total =>
                  let p' := { p with votesAbstain := intToString (total + amountBig) }
                  match newVoteFromVoteCastEvent e with
                  | none => (s, some .unmarshalFailed)
                  | some v =>
                    ({ s with votes := insertVote s.votes v
                              proposals := upsertProposal s.proposals p' }, none)
              else (s, some .invalidSupport)
        | _ => (s, some .unmarshalFailed)
  else (s, some .invalidEventType)

/-- `ApplyEvent`: first step is always the idempotent history insert, then
the state-machine dispatch. -/
def applyEvent (s : StoreState) (e : GovernorEvent) : StoreState × Option ApplyError :=
  let r := applyEventCore { proposals := s.proposals, votes := s.votes } e
  ({ history := insertEvent s.history e, proposals := r.1.proposals, votes := r.1.votes },
   r.2)

/-! ### Checkpoint protocol

Modelled from the spec: the checkpoint implementation used by the binaries
(`Store.UpsertStatus` / `Store.GetStatus`, called from `cmd/indexer/main.go`
and `internal/api/handler.go`) is not among the sources; `store.go` only
contains an older `UpsertLedgerSeq`/`GetLedgerSeq` pair without the close
time.  Following the spec's words: `UpsertCheckpoint(source, ledgerSeq,
closeTime)` stores both values for the source (insert-or-replace on the
`source` key of the `status` table), and `GetCheckpoint(source)` returns the
stored pair, zero values when no checkpoint exists. -/

def upsertCheckpoint (t : String → Option (Nat × Int)) (source : String)
    (ledgerSeq : Nat) (closeTime : Int) : String → Option (Nat × Int) :=
  fun k => if k = source then some (ledgerSeq, closeTime) else t k

/-- Modelled from the spec: see `upsertCheckpoint`. -/
def getCheckpoint (t : String → Option (Nat × Int)) (source : String) : Nat × Int :=
  match t source with
  | some p => p
  | none => (0, 0)

/-! ### C5: checkpoint round trip -/

/-- C5: `UpsertCheckpoint(source, ledgerSeq, closeTime)` stores both values,
`GetCheckpoint(source)` returns the pair last stored for that source (other
sources are untouched), and `(0, 0)` when no checkpoint exists. -/
theorem checkpoint_spec (t : String → Option (Nat × Int)) (source : String)
    (ledgerSeq : Nat) (closeTime : Int) :
    getCheckpoint (upsertCheckpoint t source ledgerSeq closeTime) source = (ledgerSeq, closeTime) ∧
    (∀ s', s' ≠ source → upsertCheckpoint t source ledgerSeq closeTime s' = t s') ∧
    (t source = none → getCheckpoint t source = (0, 0)) := by
  refine ⟨?_, ?_, ?_⟩
  · simp [getCheckpoint, upsertCheckpoint]
  · intro s' h
    simp [upsertCheckpoint, h]
  · intro h
    simp [getCheckpoint, h]

/-- C5 witness: a concrete store/update round trip. -/
theorem checkpoint_spec_witness :
    getCheckpoint (upsertCheckpoint (fun _ => none) "indexer" 1170134 1761053041) "indexer"
      = (1170134, 1761053041) ∧
    getCheckpoint (fun _ => (none : Option (Nat × Int))) "indexer" = (0, 0) :=
  ⟨(checkpoint_spec (fun _ => none) "indexer" 1170134 1761053041).1,
   (checkpoint_spec (fun _ => none) "indexer" 1170134 1761053041).2.2 rfl⟩

/-! ### Store helper lemmas -/

/-- The mutable-field overwrite performed by the `DO UPDATE SET` clause. -/
def overwriteMutable (old p : Proposal) : Proposal :=
  { old with
    status := p.status
    votesFor := p.votesFor
    votesAgainst := p.votesAgainst
    votesAbstain := p.votesAbstain
    executionUnlock := p.executionUnlock
    executionTxHash := p.executionTxHash }

lemma upsertProposal_eq (t : String → Option Proposal) (p : Proposal) :
    upsertProposal t p = fun k =>
      if k = p.proposalKey then
        match t p.proposalKey with
        | none => some p
        | some old => some (overwriteMutable old p)
      else t k := rfl

lemma upsertProposal_at_key_some (t : String → Option Proposal) (p old : Proposal)
    (h : t p.proposalKey = some old) :
    upsertProposal t p p.proposalKey = some (overwriteMutable old p) := by
  simp [upsertProposal, h, overwriteMutable]

lemma upsertProposal_at_key_none (t : String → Option Proposal) (p : Proposal)
    (h : t p.proposalKey = none) :
    upsertProposal t p p.proposalKey = some p := by
  simp [upsertProposal, h]

lemma upsertProposal_other (t : String → Option Proposal) (p : Proposal) (k : String)
    (h : k ≠ p.proposalKey) : upsertProposal t p k = t k := by
  simp [upsertProposal, h]

/-! ### C9: proposal upsert frame property -/

/-- C9: on a key already present, `UpsertProposal` keeps the stored identity
fields (`proposal_key`, `contract_id`, `proposal_id`, `proposer`, `title`,
`description`, `action`, `vote_start`, `vote_end`) and takes only status,
tallies and execution fields from the argument; on an absent key it inserts
the full proposal; rows under other keys are untouched. -/
theorem upsertProposal_spec (t : String → Option Proposal) (p : Proposal) :
    (∀ old, t p.proposalKey = some old →
      (upsertProposal t p) p.proposalKey = some { old with
        status := p.status
        votesFor := p.votesFor
        votesAgainst := p.votesAgainst
        votesAbstain := p.votesAbstain
        executionUnlock := p.executionUnlock
        executionTxHash := p.executionTxHash }) ∧
    (t p.proposalKey = none → (upsertProposal t p) p.proposalKey = some p) ∧
    (∀ k, k ≠ p.proposalKey → (upsertProposal t p) k = t k) := by
  refine ⟨?_, ?_, ?_⟩
  · intro old h
    simp [upsertProposal, h]
  · intro h
    simp [upsertProposal, h]
  · intro k h
    simp [upsertProposal, h]

/-- C9 witness: a concrete conflicting upsert keeps the identity fields. -/
theorem upsertProposal_spec_witness :
    (upsertProposal
        (fun k => if k = "C-0" then
          some { proposalKey := "C-0", contractId := "C", proposalId := 0,
                 proposer := "G1", status := 0, title := "Unicorns are real",
                 description := "clouds", action := "AA", voteStart := 1000,
                 voteEnd := 2000, votesFor := "0", votesAgainst := "0",
                 votesAbstain := "0", executionUnlock := 0, executionTxHash := "" }
          else none)
        { proposalKey := "C-0", contractId := "bad", proposalId := 99,
          proposer := "bad", status := 1, title := "bad", description := "bad",
          action := "bad", voteStart := 9999, voteEnd := 999,
          votesFor := "1000000000000000", votesAgainst := "5000",
          votesAbstain := "2000", executionUnlock := 4000,
          executionTxHash := "pretend_tx_hash" }) "C-0"
      = some { proposalKey := "C-0", contractId := "C", proposalId := 0,
               proposer := "G1", status := 1, title := "Unicorns are real",
               description := "clouds", action := "AA", voteStart := 1000,
               voteEnd := 2000, votesFor := "1000000000000000",
               votesAgainst := "5000", votesAbstain := "2000",
               executionUnlock := 4000, executionTxHash := "pretend_tx_hash" } :=
  (upsertProposal_spec _ _).1
    { proposalKey := "C-0", contractId := "C", proposalId := 0,
      proposer := "G1", status := 0, title := "Unicorns are real",
      description := "clouds", action := "AA", voteStart := 1000,
      voteEnd := 2000, votesFor := "0", votesAgainst := "0",
      votesAbstain := "0", executionUnlock := 0, executionTxHash := "" }
    (by decide)

/-! ### C4: `proposal_created` on an existing key -/

/-- C4: a `proposal_created` event whose `(contract_id, proposal_id)` key
already has a Proposal returns an ApplicationError and modifies neither the
proposals nor the votes table, while the event is still recorded in the
history store (the history insert is the first step of `ApplyEvent`). -/
theorem proposalCreated_existing (s : StoreState) (e : GovernorEvent) (p : Proposal)
    (htype : e.eventType = "proposal_created")
    (hex : s.proposals (encodeProposalKey e.contractId e.proposalId) = some p) :
    (applyEvent s e).2 = some .proposalExists ∧
    (applyEvent s e).1.proposals = s.proposals ∧
    (applyEvent s e).1.votes = s.votes ∧
    (applyEvent s e).1.history = insertEvent s.history e ∧
    (s.history e.eventId = none → (applyEvent s e).1.history e.eventId = some e) := by
  have hcore : applyEvent s e
      = ({ s with history := insertEvent s.history e }, some .proposalExists) := by
    simp [applyEvent, applyEventCore, htype, hex]
  refine ⟨by rw [hcore], by rw [hcore], by rw [hcore], by rw [hcore], ?_⟩
  intro habs
  rw [hcore]
  simp [insertEvent, habs]

/-- C4 witness: concrete duplicate creation. -/
theorem proposalCreated_existing_witness :
    (applyEvent
      { history := fun _ => none
        proposals := fun k => if k = "CDAO-3" then
          some { proposalKey := "CDAO-3", contractId := "CDAO", proposalId := 3,
                 proposer := "G1", status := 0, title := "t", description := "d",
                 action := "a", voteStart := 1, voteEnd := 2, votesFor := "0",
                 votesAgainst := "0", votesAbstain := "0", executionUnlock := 0,
                 executionTxHash := "" }
          else none
        votes := fun _ => none }
      { eventId := "0005025687261941760-0000000000", contractId := "CDAO",
        proposalId := 3, eventType := "proposal_created",
        eventData := .created { proposer := "G2", title := "x", desc := "y",
                                action := "z", voteStart := 10, voteEnd := 20 },
        txHash := "tx-dup", ledgerSeq := 7, ledgerCloseTime := 8 }).2
      = some .proposalExists :=
  (proposalCreated_existing _ _
    { proposalKey := "CDAO-3", contractId := "CDAO", proposalId := 3,
      proposer := "G1", status := 0, title := "t", description := "d",
      action := "a", voteStart := 1, voteEnd := 2, votesFor := "0",
      votesAgainst := "0", votesAbstain := "0", executionUnlock := 0,
      executionTxHash := "" }
    rfl (by decide)).1

/-! ### C10: `proposal_executed` transitions -/

/-- C10: `proposal_executed` on an existing proposal whose status is not
`Executed(4)` — whatever it is, including `Canceled(5)`, `Defeated(2)` and
`Expired(3)` — sets status `4` and `execution_tx_hash` to the event's
transaction hash and returns no error; on a proposal already `Executed(4)`
it is a state no-op returning no error. -/
theorem proposalExecuted_spec (s : StoreState) (e : GovernorEvent) (p : Proposal)
    (htype : e.eventType = "proposal_executed")
    (hkey : p.proposalKey = encodeProposalKey e.contractId e.proposalId)
    (hex : s.proposals (encodeProposalKey e.contractId e.proposalId) = some p) :
    (p.status ≠ 4 →
      (applyEvent s e).1.proposals (encodeProposalKey e.contractId e.proposalId)
        = some { p with status := 4, executionTxHash := e.txHash } ∧
      (applyEvent s e).2 = none) ∧
    (p.status = 4 →
      (applyEvent s e).1.proposals = s.proposals ∧
      (applyEvent s e).2 = none) := by
  constructor
  · intro hne
    have hcore : applyEvent s e
        = ({ history := insertEvent s.history e
             proposals := upsertProposal s.proposals
               { p with status := 4, executionTxHash := e.txHash }
             votes := s.votes }, none) := by
      simp [applyEvent, applyEventCore, htype, hex, hne]
    rw [hcore]
    refine ⟨?_, rfl⟩
    rw [← hkey]
    exact upsertProposal_at_key_some s.proposals
      { p with status := 4, executionTxHash := e.txHash } p (hkey.symm ▸ hex)
  · intro h4
    have hcore : applyEvent s e
        = ({ s with history := insertEvent s.history e }, none) := by
      simp [applyEvent, applyEventCore, htype, hex, h4]
    rw [hcore]
    exact ⟨rfl, rfl⟩

/-- C10 witness: executing a canceled (status 5) proposal still marks it
executed. -/
theorem proposalExecuted_spec_witness :
    (applyEvent
      { history := fun _ => none
        proposals := fun k => if k = "CX-1" then
          some { proposalKey := "CX-1", contractId := "CX", proposalId := 1,
                 proposer := "G1", status := 5, title := "t", description := "d",
                 action := "a", voteStart := 1, voteEnd := 2, votesFor := "3",
                 votesAgainst := "4", votesAbstain := "5", executionUnlock := 0,
                 executionTxHash := "" }
          else none
        votes := fun _ => none }
      { eventId := "ev-exec", contractId := "CX", proposalId := 1,
        eventType := "proposal_executed", eventData := .empty,
        txHash := "exec-hash", ledgerSeq := 7, ledgerCloseTime := 8 }).1.proposals
      (encodeProposalKey "CX" 1)
      = some { proposalKey := "CX-1", contractId := "CX", proposalId := 1,
               proposer := "G1", status := 4, title := "t", description := "d",
               action := "a", voteStart := 1, voteEnd := 2, votesFor := "3",
               votesAgainst := "4", votesAbstain := "5", executionUnlock := 0,
               executionTxHash := "exec-hash" } :=
  ((proposalExecuted_spec _ _
    { proposalKey := "CX-1", contractId := "CX", proposalId := 1,
      proposer := "G1", status := 5, title := "t", description := "d",
      action := "a", voteStart := 1, voteEnd := 2, votesFor := "3",
      votesAgainst := "4", votesAbstain := "5", executionUnlock := 0,
      executionTxHash := "" }
    rfl (by decide) (by decide)).1 (by decide)).1

/-! ### C2: exact big-integer tally accumulation -/

lemma voteCast_adds_helper (s : StoreState) (e : GovernorEvent) (p : Proposal)
    (d : VoteCastData) (a vf vg vb : Int)
    (htype : e.eventType = "vote_cast")
    (hdata : e.eventData = .voteCast d)
    (hkey : p.proposalKey = encodeProposalKey e.contractId e.proposalId)
    (hex : s.proposals (encodeProposalKey e.contractId e.proposalId) = some p)
    (hactive : p.status = 0)
    (hnovote : s.votes e.txHash = none)
    (ha : parseBigInt d.amount = some a)
    (hvf : parseBigInt p.votesFor = some vf)
    (hvg : parseBigInt p.votesAgainst = some vg)
    (hvb : parseBigInt p.votesAbstain = some vb) :
    (d.support = 1 →
      (applyEvent s e).1.proposals (encodeProposalKey e.contractId e.proposalId)
        = some { p with votesFor := intToString (vf + a) } ∧
      (applyEvent s e).2 = none) ∧
    (d.support = 0 →
      (applyEvent s e).1.proposals (encodeProposalKey e.contractId e.proposalId)
        = some { p with votesAgainst := intToString (vg + a) } ∧
      (applyEvent s e).2 = none) ∧
    (d.support = 2 →
      (applyEvent s e).1.proposals (encodeProposalKey e.contractId e.proposalId)
        = some { p with votesAbstain := intToString (vb + a) } ∧
      (applyEvent s e).2 = none) := by
  have hvote : newVoteFromVoteCastEvent e = some
      { txHash := e.txHash, contractId := e.contractId, proposalId := e.proposalId,
        voter := d.voter, support := d.support, amount := d.amount,
        ledgerSeq := e.ledgerSeq, ledgerCloseTime := e.ledgerCloseTime } := by
    simp [newVoteFromVoteCastEvent, htype, hdata]
  refine ⟨?_, ?_, ?_⟩
  · intro hs
    have hcore : applyEvent s e = ({
        history := insertEvent s.history e
        proposals := upsertProposal s.proposals { p with votesFor := intToString (vf + a) }
        votes := insertVote s.votes
          { txHash := e.txHash, contractId := e.contractId, proposalId := e.proposalId,
            voter := d.voter, support := d.support, amount := d.amount,
            ledgerSeq := e.ledgerSeq, ledgerCloseTime := e.ledgerCloseTime } }, none) := by
      simp [applyEvent, applyEventCore, htype, hdata, hex, hactive, hnovote, ha, hvf,
        hs, hvote]
    rw [hcore]
    refine ⟨?_, rfl⟩
    rw [← hkey]
    exact upsertProposal_at_key_some s.proposals
      { p with votesFor := intToString (vf + a) } p (hkey.symm ▸ hex)
  · intro hs
    have hcore : applyEvent s e = ({
        history := insertEvent s.history e
        proposals := upsertProposal s.proposals { p with votesAgainst := intToString (vg + a) }
        votes := insertVote s.votes
          { txHash := e.txHash, contractId := e.contractId, proposalId := e.proposalId,
            voter := d.voter, support := d.support, amount := d.amount,
            ledgerSeq := e.ledgerSeq, ledgerCloseTime := e.ledgerCloseTime } }, none) := by
      simp [applyEvent, applyEventCore, htype, hdata, hex, hactive, hnovote, ha, hvg,
        hs, hvote]
    rw [hcore]
    refine ⟨?_, rfl⟩
    rw [← hkey]
    exact upsertProposal_at_key_some s.proposals
      { p with votesAgainst := intToString (vg + a) } p (hkey.symm ▸ hex)
  · intro hs
    have hcore : applyEvent s e = ({
        history := insertEvent s.history e
        proposals := upsertProposal s.proposals { p with votesAbstain := intToString (vb + a) }
        votes := insertVote s.votes
          { txHash := e.txHash, contractId := e.contractId, proposalId := e.proposalId,
            voter := d.voter, support := d.support, amount := d.amount,
            ledgerSeq := e.ledgerSeq, ledgerCloseTime := e.ledgerCloseTime } }, none) := by
      simp [applyEvent, applyEventCore, htype, hdata, hex, hactive, hnovote, ha, hvb,
        hs, hvote]
    rw [hcore]
    refine ⟨?_, rfl⟩
    rw [← hkey]
    exact upsertProposal_at_key_some s.proposals
      { p with votesAbstain := intToString (vb + a) } p (hkey.symm ▸ hex)

/-- C2: a `vote_cast` on an Active proposal with no prior Vote for the
transaction hash adds the parsed amount to the tally selected by `support`
(1 = for, 0 = against, 2 = abstain) with exact arbitrary-precision integer
arithmetic, leaving the other two tallies unchanged. -/
theorem voteCast_adds_exact (s : StoreState) (e : GovernorEvent) (p : Proposal)
    (d : VoteCastData) (a vf vg vb : Int)
    (htype : e.eventType = "vote_cast")
    (hdata : e.eventData = .voteCast d)
    (hkey : p.proposalKey = encodeProposalKey e.contractId e.proposalId)
    (hex : s.proposals (encodeProposalKey e.contractId e.proposalId) = some p)
    (hactive : p.status = 0)
    (hnovote : s.votes e.txHash = none)
    (ha : parseBigInt d.amount = some a)
    (hvf : parseBigInt p.votesFor = some vf)
    (hvg : parseBigInt p.votesAgainst = some vg)
    (hvb : parseBigInt p.votesAbstain = some vb) :
    (d.support = 1 →
      (applyEvent s e).1.proposals (encodeProposalKey e.contractId e.proposalId)
        = some { p with votesFor := intToString (vf + a) } ∧
      (applyEvent s e).2 = none) ∧
    (d.support = 0 →
      (applyEvent s e).1.proposals (encodeProposalKey e.contractId e.proposalId)
        = some { p with votesAgainst := intToString (vg + a) } ∧
      (applyEvent s e).2 = none) ∧
    (d.support = 2 →
      (applyEvent s e).1.proposals (encodeProposalKey e.contractId e.proposalId)
        = some { p with votesAbstain := intToString (vb + a) } ∧
      (applyEvent s e).2 = none) :=
  voteCast_adds_helper s e p d a vf vg vb htype hdata hkey hex hactive hnovote
    ha hvf hvg hvb

/-- C2 witness: `votes_for = "12314122341234"` plus amount `"20000000000"`
gives exactly `"12334122341234"`, with the other tallies untouched. -/
theorem voteCast_adds_exact_witness :
    (applyEvent
      { history := fun _ => none
        proposals := fun k => if k = "CV-3" then
          some { proposalKey := "CV-3", contractId := "CV", proposalId := 3,
                 proposer := "G1", status := 0, title := "t", description := "d",
                 action := "a", voteStart := 1, voteEnd := 2,
                 votesFor := "12314122341234", votesAgainst := "1234123412434",
                 votesAbstain := "1923114243", executionUnlock := 0,
                 executionTxHash := "" }
          else none
        votes := fun _ => none }
      { eventId := "ev-vote", contractId := "CV", proposalId := 3,
        eventType := "vote_cast",
        eventData := .voteCast { voter := "G2", support := 1, amount := "20000000000" },
        txHash := "tx-vote", ledgerSeq := 7, ledgerCloseTime := 8 }).1.proposals
      (encodeProposalKey "CV" 3)
      = some { proposalKey := "CV-3", contractId := "CV", proposalId := 3,
               proposer := "G1", status := 0, title := "t", description := "d",
               action := "a", voteStart := 1, voteEnd := 2,
               votesFor := "12334122341234", votesAgainst := "1234123412434",
               votesAbstain := "1923114243", executionUnlock := 0,
               executionTxHash := "" } := by
  have h := ((voteCast_adds_exact
    { history := fun _ => none
      proposals := fun k => if k = "CV-3" then
        some { proposalKey := "CV-3", contractId := "CV", proposalId := 3,
               proposer := "G1", status := 0, title := "t", description := "d",
               action := "a", voteStart := 1, voteEnd := 2,
               votesFor := "12314122341234", votesAgainst := "1234123412434",
               votesAbstain := "1923114243", executionUnlock := 0,
               executionTxHash := "" }
        else none
      votes := fun _ => none }
    { eventId := "ev-vote", contractId := "CV", proposalId := 3,
      eventType := "vote_cast",
      eventData := .voteCast { voter := "G2", support := 1, amount := "20000000000" },
      txHash := "tx-vote", ledgerSeq := 7, ledgerCloseTime := 8 }
    { proposalKey := "CV-3", contractId := "CV", proposalId := 3,
      proposer := "G1", status := 0, title := "t", description := "d",
      action := "a", voteStart := 1, voteEnd := 2,
      votesFor := "12314122341234", votesAgainst := "1234123412434",
      votesAbstain := "1923114243", executionUnlock := 0, executionTxHash := "" }
    { voter := "G2", support := 1, amount := "20000000000" }
    20000000000 12314122341234 1234123412434 1923114243
    rfl rfl (by decide) (by decide) rfl rfl
    (by decide) (by decide) (by decide) (by decide)).1 rfl).1
  rw [h]
  decide

/-! ### C3: amount parsing and tally sign -/

/-- C3 counterexample: the amount string is parsed with
`big.Int.SetString(s, 10)`, which accepts a leading minus sign, so a
`vote_cast` with amount `"-20000000000"` against `votes_for = "100"` is
applied without error and drives the tally negative. -/
theorem voteCast_negative_amount_counterexample :
    (applyEvent
      { history := fun _ => none
        proposals := fun k => if k = "CN-1" then
          some { proposalKey := "CN-1", contractId := "CN", proposalId := 1,
                 proposer := "G1", status := 0, title := "t", description := "d",
                 action := "a", voteStart := 1, voteEnd := 2, votesFor := "100",
                 votesAgainst := "0", votesAbstain := "0", executionUnlock := 0,
                 executionTxHash := "" }
          else none
        votes := fun _ => none }
      { eventId := "ev-neg", contractId := "CN", proposalId := 1,
        eventType := "vote_cast",
        eventData := .voteCast { voter := "G2", support := 1, amount := "-20000000000" },
        txHash := "tx-neg", ledgerSeq := 7, ledgerCloseTime := 8 }).2 = none ∧
    ((applyEvent
      { history := fun _ => none
        proposals := fun k => if k = "CN-1" then
          some { proposalKey := "CN-1", contractId := "CN", proposalId := 1,
                 proposer := "G1", status := 0, title := "t", description := "d",
                 action := "a", voteStart := 1, voteEnd := 2, votesFor := "100",
                 votesAgainst := "0", votesAbstain := "0", executionUnlock := 0,
                 executionTxHash := "" }
          else none
        votes := fun _ => none }
      { eventId := "ev-neg", contractId := "CN", proposalId := 1,
        eventType := "vote_cast",
        eventData := .voteCast { voter := "G2", support := 1, amount := "-20000000000" },
        txHash := "tx-neg", ledgerSeq := 7, ledgerCloseTime := 8 }).1.proposals
      "CN-1").map Proposal.votesFor = some "-19999999900" := by
  constructor
  · decide
  · decide

/-- C3 (amended): the amount is parsed as an arbitrary-precision integer
with an optional sign; an unparsable string yields an ApplicationError and
leaves proposals and votes unchanged; and the tallies stay non-negative
provided the event's amount is non-negative. -/
theorem voteCast_amount_spec (s : StoreState) (e : GovernorEvent) (p : Proposal)
    (d : VoteCastData)
    (htype : e.eventType = "vote_cast")
    (hdata : e.eventData = .voteCast d)
    (hkey : p.proposalKey = encodeProposalKey e.contractId e.proposalId)
    (hex : s.proposals (encodeProposalKey e.contractId e.proposalId) = some p)
    (hactive : p.status = 0)
    (hnovote : s.votes e.txHash = none) :
    (parseBigInt d.amount = none →
      (applyEvent s e).2 = some .invalidAmount ∧
      (applyEvent s e).1.proposals = s.proposals ∧
      (applyEvent s e).1.votes = s.votes) ∧
    (∀ a vf vg vb, parseBigInt d.amount = some a → 0 ≤ a →
      parseBigInt p.votesFor = some vf → 0 ≤ vf →
      parseBigInt p.votesAgainst = some vg → 0 ≤ vg →
      parseBigInt p.votesAbstain = some vb → 0 ≤ vb →
      ∀ q, (applyEvent s e).1.proposals (encodeProposalKey e.contractId e.proposalId)
          = some q →
        (∃ x, parseBigInt q.votesFor = some x ∧ 0 ≤ x) ∧
        (∃ y, parseBigInt q.votesAgainst = some y ∧ 0 ≤ y) ∧
        (∃ z, parseBigInt q.votesAbstain = some z ∧ 0 ≤ z)) := by
  constructor
  · intro hnone
    have hcore : applyEvent s e
        = ({ s with history := insertEvent s.history e }, some .invalidAmount) := by
      simp [applyEvent, applyEventCore, htype, hdata, hex, hactive, hnovote, hnone]
    rw [hcore]
    exact ⟨rfl, rfl, rfl⟩
  · intro a vf vg vb ha hha hvf hhvf hvg hhvg hvb hhvb q hq
    have hmain := voteCast_adds_helper s e p d a vf vg vb htype hdata hkey hex hactive
      hnovote ha hvf hvg hvb
    by_cases hs0 : d.support = 0
    · obtain ⟨hq', -⟩ := hmain.2.1 hs0
      rw [hq'] at hq
      obtain rfl : q = { p with votesAgainst := intToString (vg + a) } :=
        (Option.some_injective _ hq).symm
      exact ⟨⟨vf, hvf, hhvf⟩,
        ⟨vg + a, parseBigInt_intToString _, by omega⟩,
        ⟨vb, hvb, hhvb⟩⟩
    · by_cases hs1 : d.support = 1
      · obtain ⟨hq', -⟩ := hmain.1 hs1
        rw [hq'] at hq
        obtain rfl : q = { p with votesFor := intToString (vf + a) } :=
          (Option.some_injective _ hq).symm
        exact ⟨⟨vf + a, parseBigInt_intToString _, by omega⟩,
          ⟨vg, hvg, hhvg⟩, ⟨vb, hvb, hhvb⟩⟩
      · by_cases hs2 : d.support = 2
        · obtain ⟨hq', -⟩ := hmain.2.2 hs2
          rw [hq'] at hq
          obtain rfl : q = { p with votesAbstain := intToString (vb + a) } :=
            (Option.some_injective _ hq).symm
          exact ⟨⟨vf, hvf, hhvf⟩, ⟨vg, hvg, hhvg⟩,
            ⟨vb + a, parseBigInt_intToString _, by omega⟩⟩
        · have hcore : applyEvent s e
              = ({ s with history := insertEvent s.history e }, some .invalidSupport) := by
            simp [applyEvent, applyEventCore, htype, hdata, hex, hactive, hnovote, ha,
              hs0, hs1, hs2]
          rw [hcore] at hq
          simp only at hq
          rw [hex] at hq
          obtain rfl : q = p := (Option.some_injective _ hq).symm
          exact ⟨⟨vf, hvf, hhvf⟩, ⟨vg, hvg, hhvg⟩, ⟨vb, hvb, hhvb⟩⟩

/-- C3 witness for the amended claim: an unparsable amount (`"12a4"`) is an
ApplicationError leaving the state alone. -/
theorem voteCast_amount_spec_witness :
    (applyEvent
      { history := fun _ => none
        proposals := fun k => if k = "CP-2" then
          some { proposalKey := "CP-2", contractId := "CP", proposalId := 2,
                 proposer := "G1", status := 0, title := "t", description := "d",
                 action := "a", voteStart := 1, voteEnd := 2, votesFor := "7",
                 votesAgainst := "8", votesAbstain := "9", executionUnlock := 0,
                 executionTxHash := "" }
          else none
        votes := fun _ => none }
      { eventId := "ev-bad", contractId := "CP", proposalId := 2,
        eventType := "vote_cast",
        eventData := .voteCast { voter := "G2", support := 1, amount := "12a4" },
        txHash := "tx-bad", ledgerSeq := 7, ledgerCloseTime := 8 }).2
      = some .invalidAmount :=
  ((voteCast_amount_spec
    { history := fun _ => none
      proposals := fun k => if k = "CP-2" then
        some { proposalKey := "CP-2", contractId := "CP", proposalId := 2,
               proposer := "G1", status := 0, title := "t", description := "d",
               action := "a", voteStart := 1, voteEnd := 2, votesFor := "7",
               votesAgainst := "8", votesAbstain := "9", executionUnlock := 0,
               executionTxHash := "" }
        else none
      votes := fun _ => none }
    { eventId := "ev-bad", contractId := "CP", proposalId := 2,
      eventType := "vote_cast",
      eventData := .voteCast { voter := "G2", support := 1, amount := "12a4" },
      txHash := "tx-bad", ledgerSeq := 7, ledgerCloseTime := 8 }
    { proposalKey := "CP-2", contractId := "CP", proposalId := 2,
      proposer := "G1", status := 0, title := "t", description := "d",
      action := "a", voteStart := 1, voteEnd := 2, votesFor := "7",
      votesAgainst := "8", votesAbstain := "9", executionUnlock := 0,
      executionTxHash := "" }
    { voter := "G2", support := 1, amount := "12a4" }
    rfl rfl (by decide) (by decide) rfl rfl).1 (by decide)).1

/-! ### C1: idempotence of event application -/

lemma insertEvent_already (h : String → Option GovernorEvent) (e : GovernorEvent)
    (hs : h e.eventId ≠ none) : insertEvent h e = h := by
  unfold insertEvent
  cases hh : h e.eventId with
  | none => exact absurd hh hs
  | some _ => rfl

lemma insertEvent_isSome (h : String → Option GovernorEvent) (e : GovernorEvent) :
    (insertEvent h e) e.eventId ≠ none := by
  unfold insertEvent
  cases hh : h e.eventId with
  | none => simp
  | some _ => simp [hh]

lemma insertVote_at (t : String → Option Vote) (v : Vote) (hn : t v.txHash = none) :
    insertVote t v v.txHash = some v := by
  simp [insertVote, hn]

lemma upsertProposal_idem (t : String → Option Proposal) (p : Proposal) :
    upsertProposal (upsertProposal t p) p = upsertProposal t p := by
  funext k
  by_cases hk : k = p.proposalKey
  · subst hk
    cases ht : t p.proposalKey with
    | none =>
      have h1 : upsertProposal t p p.proposalKey = some p :=
        upsertProposal_at_key_none t p ht
      rw [upsertProposal_at_key_some _ p p h1, h1]
      rfl
    | some old =>
      have h1 : upsertProposal t p p.proposalKey = some (overwriteMutable old p) :=
        upsertProposal_at_key_some t p old ht
      rw [upsertProposal_at_key_some _ p _ h1, h1]
      rfl
  · rw [upsertProposal_other _ _ _ hk, upsertProposal_other _ _ _ hk]

lemma newProposal_key (e : GovernorEvent) (p : Proposal)
    (h : newProposalFromProposalCreatedEvent e = some p) :
    p.proposalKey = encodeProposalKey e.contractId e.proposalId := by
  unfold newProposalFromProposalCreatedEvent at h
  split at h
  · exact absurd h (by simp)
  · split at h
    · cases h; rfl
    · exact absurd h (by simp)

lemma idem_of_const (s : AggState) (e : GovernorEvent)
    (hc : (applyEventCore s e).1 = s) :
    (applyEventCore (applyEventCore s e).1 e).1 = (applyEventCore s e).1 := by
  simp only [hc]

lemma applyEventCore_idem (s : AggState) (e : GovernorEvent) :
    (applyEventCore (applyEventCore s e).1 e).1 = (applyEventCore s e).1 := by
  by_cases h1 : e.eventType = "proposal_created"
  · cases hp : s.proposals (encodeProposalKey e.contractId e.proposalId) with
    | some p =>
      exact idem_of_const _ _ (by simp [applyEventCore, h1, hp])
    | none =>
      cases hnp : newProposalFromProposalCreatedEvent e with
      | none => exact idem_of_const _ _ (by simp [applyEventCore, h1, hp, hnp])
      | some p =>
        have hpk := newProposal_key e p hnp
        have hc : applyEventCore s e
            = ({ s with proposals := upsertProposal s.proposals p }, none) := by
          simp [applyEventCore, h1, hp, hnp]
        have h2 : (upsertProposal s.proposals p)
            (encodeProposalKey e.contractId e.proposalId) = some p := by
          rw [← hpk]
          exact upsertProposal_at_key_none _ _ (by rw [hpk]; exact hp)
        rw [hc]
        simp [applyEventCore, h1, h2]
  · by_cases h2 : e.eventType = "proposal_canceled"
    · cases hp : s.proposals (encodeProposalKey e.contractId e.proposalId) with
      | none => exact idem_of_const _ _ (by simp [applyEventCore, h1, h2, hp])
      | some p =>
        by_cases hst : p.status ≠ 0
        · exact idem_of_const _ _ (by simp [applyEventCore, h1, h2, hp, hst])
        · push_neg at hst
          have hc : applyEventCore s e
              = ({ s with proposals := upsertProposal s.proposals { p with status := 5 } },
                 none) := by
            simp [applyEventCore, h1, h2, hp, hst]
          rw [hc]
          by_cases hk : encodeProposalKey e.contractId e.proposalId = p.proposalKey
          · have hq : (upsertProposal s.proposals { p with status := 5 })
                (encodeProposalKey e.contractId e.proposalId)
                = some { p with status := 5 } := by
              rw [hk]
              exact upsertProposal_at_key_some _ _ p (hk ▸ hp)
            simp [applyEventCore, h1, h2, hq]
          · have hq : (upsertProposal s.proposals { p with status := 5 })
                (encodeProposalKey e.contractId e.proposalId) = some p := by simp [upsertProposal, hk, hp]
            simp [applyEventCore, h1, h2, hq, hst, upsertProposal_idem]
    · by_cases h3 : e.eventType = "proposal_voting_closed"
      · cases hp : s.proposals (encodeProposalKey e.contractId e.proposalId) with
        | none => exact idem_of_const _ _ (by simp [applyEventCore, h1, h2, h3, hp])
        | some p =>
          by_cases hst : p.status ≠ 0
          · exact idem_of_const _ _ (by simp [applyEventCore, h1, h2, h3, hp, hst])
          · push_neg at hst
            cases hd : e.eventData with
            | votingClosed d =>
              have hc : applyEventCore s e
                  = ({ s with proposals := upsertProposal s.proposals { p with
                        status := d.status
                        votesFor := d.finalVotes.forVotes
                        votesAgainst := d.finalVotes.against
                        votesAbstain := d.finalVotes.abstain
                        executionUnlock := d.eta } }, none) := by
                simp [applyEventCore, h1, h2, h3, hp, hst, hd]
              rw [hc]
              by_cases hk : encodeProposalKey e.contractId e.proposalId = p.proposalKey
              · have hq : (upsertProposal s.proposals { p with
                      status := d.status
                      votesFor := d.finalVotes.forVotes
                      votesAgainst := d.finalVotes.against
                      votesAbstain := d.finalVotes.abstain
                      executionUnlock := d.eta })
                    (encodeProposalKey e.contractId e.proposalId)
                    = some { p with
                      status := d.status
                      votesFor := d.finalVotes.forVotes
                      votesAgainst := d.finalVotes.against
                      votesAbstain := d.finalVotes.abstain
                      executionUnlock := d.eta } := by
                  rw [hk]
                  exact upsertProposal_at_key_some _ _ p (hk ▸ hp)
                by_cases hds : d.status = 0
                · simp only [hds] at hq
                  simp [applyEventCore, h1, h2, h3, hq, hds, hd, upsertProposal_idem]
                · simp [applyEventCore, h1, h2, h3, hq, hds]
              · have hq : (upsertProposal s.proposals { p with
                      status := d.status
                      votesFor := d.finalVotes.forVotes
                      votesAgainst := d.finalVotes.against
                      votesAbstain := d.finalVotes.abstain
                      executionUnlock := d.eta })
                    (encodeProposalKey e.contractId e.proposalId) = some p := by simp [upsertProposal, hk, hp]
                simp [applyEventCore, h1, h2, h3, hq, hst, hd, upsertProposal_idem]
            | created d =>
              exact idem_of_const _ _ (by simp [applyEventCore, h1, h2, h3, hp, hst, hd])
            | voteCast d =>
              exact idem_of_const _ _ (by simp [applyEventCore, h1, h2, h3, hp, hst, hd])
            | empty =>
              exact idem_of_const _ _ (by simp [applyEventCore, h1, h2, h3, hp, hst, hd])
            | malformed =>
              exact idem_of_const _ _ (by simp [applyEventCore, h1, h2, h3, hp, hst, hd])
      · by_cases h4 : e.eventType = "proposal_executed"
        · cases hp : s.proposals (encodeProposalKey e.contractId e.proposalId) with
          | none =>
            exact idem_of_const _ _ (by simp [applyEventCore, h1, h2, h3, h4, hp])
          | some p =>
            by_cases hst : p.status = 4
            · exact idem_of_const _ _ (by simp [applyEventCore, h1, h2, h3, h4, hp, hst])
            · have hc : applyEventCore s e
                  = ({ s with proposals := upsertProposal s.proposals { p with status := 4, executionTxHash := e.txHash } }, none) := by
                simp [applyEventCore, h1, h2, h3, h4, hp, hst]
              rw [hc]
              by_cases hk : encodeProposalKey e.contractId e.proposalId = p.proposalKey
              · have hq : (upsertProposal s.proposals
                      { p with status := 4, executionTxHash := e.txHash })
                    (encodeProposalKey e.contractId e.proposalId)
                    = some { p with status := 4, executionTxHash := e.txHash } := by
                  rw [hk]
                  exact upsertProposal_at_key_some _ _ p (hk ▸ hp)
                simp [applyEventCore, h1, h2, h3, h4, hq]
              · have hq : (upsertProposal s.proposals
                      { p with status := 4, executionTxHash := e.txHash })
                    (encodeProposalKey e.contractId e.proposalId) = some p := by simp [upsertProposal, hk, hp]
                simp [applyEventCore, h1, h2, h3, h4, hq, hst, upsertProposal_idem]
        · by_cases h5 : e.eventType = "proposal_expired"
          · cases hp : s.proposals (encodeProposalKey e.contractId e.proposalId) with
            | none =>
              exact idem_of_const _ _ (by simp [applyEventCore, h1, h2, h3, h4, h5, hp])
            | some p =>
              by_cases hst : p.status ≠ 0 ∧ p.status ≠ 1
              · exact idem_of_const _ _
                  (by simp [applyEventCore, h1, h2, h3, h4, h5, hp, hst])
              · have hc : applyEventCore s e
                    = ({ s with proposals := upsertProposal s.proposals { p with status := 3 } }, none) := by
                  simp [applyEventCore, h1, h2, h3, h4, h5, hp, hst]
                rw [hc]
                by_cases hk : encodeProposalKey e.contractId e.proposalId = p.proposalKey
                · have hq : (upsertProposal s.proposals { p with status := 3 })
                      (encodeProposalKey e.contractId e.proposalId)
                      = some { p with status := 3 } := by
                    rw [hk]
                    exact upsertProposal_at_key_some _ _ p (hk ▸ hp)
                  simp [applyEventCore, h1, h2, h3, h4, h5, hq]
                · have hq : (upsertProposal s.proposals { p with status := 3 })
                      (encodeProposalKey e.contractId e.proposalId) = some p := by simp [upsertProposal, hk, hp]
                  simp [applyEventCore, h1, h2, h3, h4, h5, hq, hst, upsertProposal_idem]
          · by_cases h6 : e.eventType = "vote_cast"
            · cases hp : s.proposals (encodeProposalKey e.contractId e.proposalId) with
              | none =>
                exact idem_of_const _ _
                  (by simp [applyEventCore, h1, h2, h3, h4, h5, h6, hp])
              | some p =>
                by_cases hst : p.status ≠ 0
                · exact idem_of_const _ _
                    (by simp [applyEventCore, h1, h2, h3, h4, h5, h6, hp, hst])
                · push_neg at hst
                  cases hd : e.eventData with
                  | voteCast d =>
                    cases hv : s.votes e.txHash with
                    | some v =>
                      exact idem_of_const _ _
                        (by simp [applyEventCore, h1, h2, h3, h4, h5, h6, hp, hst, hd, hv])
                    | none =>
                      cases ha : parseBigInt d.amount with
                      | none =>
                        exact idem_of_const _ _
                          (by simp [applyEventCore, h1, h2, h3, h4, h5, h6, hp, hst, hd,
                            hv, ha])
                      | some a =>
                        have hvote : newVoteFromVoteCastEvent e = some
                            { txHash := e.txHash, contractId := e.contractId,
                              proposalId := e.proposalId, voter := d.voter,
                              support := d.support, amount := d.amount,
                              ledgerSeq := e.ledgerSeq,
                              ledgerCloseTime := e.ledgerCloseTime } := by
                          simp [newVoteFromVoteCastEvent, h6, hd]
                        have hv2 : (insertVote s.votes
                            { txHash := e.txHash, contractId := e.contractId,
                              proposalId := e.proposalId, voter := d.voter,
                              support := d.support, amount := d.amount,
                              ledgerSeq := e.ledgerSeq,
                              ledgerCloseTime := e.ledgerCloseTime }) e.txHash
                            = some
                              { txHash := e.txHash, contractId := e.contractId,
                                proposalId := e.proposalId, voter := d.voter,
                                support := d.support, amount := d.amount,
                                ledgerSeq := e.ledgerSeq,
                                ledgerCloseTime := e.ledgerCloseTime } :=
                          insertVote_at s.votes _ hv
                        by_cases hs0 : d.support = 0
                        · cases hta : parseBigInt p.votesAgainst with
                          | none =>
                            exact idem_of_const _ _
                              (by simp [applyEventCore, h1, h2, h3, h4, h5, h6, hp, hst,
                                hd, hv, ha, hs0, hta])
                          | some total =>
                            have hc : applyEventCore s e
                                = ({ s with
                                    votes := insertVote s.votes
                                      { txHash := e.txHash, contractId := e.contractId,
                                        proposalId := e.proposalId, voter := d.voter,
                                        support := d.support, amount := d.amount,
                                        ledgerSeq := e.ledgerSeq,
                                        ledgerCloseTime := e.ledgerCloseTime }
                                    proposals := upsertProposal s.proposals
                                      { p with votesAgainst := intToString (total + a) } },
                                   none) := by
                              simp [applyEventCore, h1, h2, h3, h4, h5, h6, hp, hst, hd,
                                hv, ha, hs0, hta, hvote]
                            rw [hc]
                            by_cases hk : encodeProposalKey e.contractId e.proposalId
                                = p.proposalKey
                            · have hq : (upsertProposal s.proposals
                                  { p with votesAgainst := intToString (total + a) })
                                  (encodeProposalKey e.contractId e.proposalId)
                                  = some { p with
                                      votesAgainst := intToString (total + a) } := by
                                rw [hk]
                                exact upsertProposal_at_key_some _ _ p (hk ▸ hp)
                              simp only [hst] at hq
                              simp [applyEventCore, h1, h2, h3, h4, h5, h6, hq, hst, hd,
                                hv2]
                            · have hq : (upsertProposal s.proposals
                                  { p with votesAgainst := intToString (total + a) })
                                  (encodeProposalKey e.contractId e.proposalId)
                                  = some p := by simp [upsertProposal, hk, hp]
                              simp only [hst] at hq
                              simp [applyEventCore, h1, h2, h3, h4, h5, h6, hq, hst, hd,
                                hv2]
                        · by_cases hs1 : d.support = 1
                          · cases hta : parseBigInt p.votesFor with
                            | none =>
                              exact idem_of_const _ _
                                (by simp [applyEventCore, h1, h2, h3, h4, h5, h6, hp,
                                  hst, hd, hv, ha, hs0, hs1, hta])
                            | some total =>
                              have hc : applyEventCore s e
                                  = ({ s with
                                      votes := insertVote s.votes
                                        { txHash := e.txHash, contractId := e.contractId,
                                          proposalId := e.proposalId, voter := d.voter,
                                          support := d.support, amount := d.amount,
                                          ledgerSeq := e.ledgerSeq,
                                          ledgerCloseTime := e.ledgerCloseTime }
                                      proposals := upsertProposal s.proposals
                                        { p with votesFor := intToString (total + a) } },
                                     none) := by
                                simp [applyEventCore, h1, h2, h3, h4, h5, h6, hp, hst,
                                  hd, hv, ha, hs0, hs1, hta, hvote]
                              rw [hc]
                              by_cases hk : encodeProposalKey e.contractId e.proposalId
                                  = p.proposalKey
                              · have hq : (upsertProposal s.proposals
                                    { p with votesFor := intToString (total + a) })
                                    (encodeProposalKey e.contractId e.proposalId)
                                    = some { p with
                                        votesFor := intToString (total + a) } := by
                                  rw [hk]
                                  exact upsertProposal_at_key_some _ _ p (hk ▸ hp)
                                simp only [hst] at hq
                                simp [applyEventCore, h1, h2, h3, h4, h5, h6, hq, hst,
                                  hd, hv2]
                              · have hq : (upsertProposal s.proposals
                                    { p with votesFor := intToString (total + a) })
                                    (encodeProposalKey e.contractId e.proposalId)
                                    = some p := by simp [upsertProposal, hk, hp]
                                simp only [hst] at hq
                                simp [applyEventCore, h1, h2, h3, h4, h5, h6, hq, hst,
                                  hd, hv2]
                          · by_cases hs2 : d.support = 2
                            · cases hta : parseBigInt p.votesAbstain with
                              | none =>
                                exact idem_of_const _ _
                                  (by simp [applyEventCore, h1, h2, h3, h4, h5, h6, hp,
                                    hst, hd, hv, ha, hs0, hs1, hs2, hta])
                              | some total =>
                                have hc : applyEventCore s e
                                    = ({ s with
                                        votes := insertVote s.votes
                                          { txHash := e.txHash,
                                            contractId := e.contractId,
                                            proposalId := e.proposalId, voter := d.voter,
                                            support := d.support, amount := d.amount,
                                            ledgerSeq := e.ledgerSeq,
                                            ledgerCloseTime := e.ledgerCloseTime }
                                        proposals := upsertProposal s.proposals
                                          { p with
                                            votesAbstain := intToString (total + a) } },
                                       none) := by
                                  simp [applyEventCore, h1, h2, h3, h4, h5, h6, hp, hst,
                                    hd, hv, ha, hs0, hs1, hs2, hta, hvote]
                                rw [hc]
                                by_cases hk : encodeProposalKey e.contractId e.proposalId
                                    = p.proposalKey
                                · have hq : (upsertProposal s.proposals
                                      { p with votesAbstain := intToString (total + a) })
                                      (encodeProposalKey e.contractId e.proposalId)
                                      = some { p with
                                          votesAbstain := intToString (total + a) } := by
                                    rw [hk]
                                    exact upsertProposal_at_key_some _ _ p (hk ▸ hp)
                                  simp only [hst] at hq
                                  simp [applyEventCore, h1, h2, h3, h4, h5, h6, hq, hst,
                                    hd, hv2]
                                · have hq : (upsertProposal s.proposals
                                      { p with votesAbstain := intToString (total + a) })
                                      (encodeProposalKey e.contractId e.proposalId)
                                      = some p := by simp [upsertProposal, hk, hp]
                                  simp only [hst] at hq
                                  simp [applyEventCore, h1, h2, h3, h4, h5, h6, hq, hst,
                                    hd, hv2]
                            · exact idem_of_const _ _
                                (by simp [applyEventCore, h1, h2, h3, h4, h5, h6, hp,
                                  hst, hd, hv, ha, hs0, hs1, hs2])
                  | created d =>
                    exact idem_of_const _ _
                      (by simp [applyEventCore, h1, h2, h3, h4, h5, h6, hp, hst, hd])
                  | votingClosed d =>
                    exact idem_of_const _ _
                      (by simp [applyEventCore, h1, h2, h3, h4, h5, h6, hp, hst, hd])
                  | empty =>
                    exact idem_of_const _ _
                      (by simp [applyEventCore, h1, h2, h3, h4, h5, h6, hp, hst, hd])
                  | malformed =>
                    exact idem_of_const _ _
                      (by simp [applyEventCore, h1, h2, h3, h4, h5, h6, hp, hst, hd])
            · exact idem_of_const _ _
                (by simp [applyEventCore, h1, h2, h3, h4, h5, h6])

/-- C1: re-applying an already-applied event is a state no-op: the duplicate
history insert does nothing, the per-type status guards (and, for
`vote_cast`, the existing Vote row for the transaction hash) make the
transition a no-op, so a second application of any event leaves the stored
history, Proposal and Vote state exactly as after the first. -/
theorem applyEvent_idem (s : StoreState) (e : GovernorEvent) :
    (applyEvent (applyEvent s e).1 e).1 = (applyEvent s e).1 := by
  have h3 := applyEventCore_idem ⟨s.proposals, s.votes⟩ e
  unfold applyEvent
  dsimp only
  rw [insertEvent_already _ _ (insertEvent_isSome _ _)]
  exact congrArg₂ (fun P V => StoreState.mk (insertEvent s.history e) P V)
    (congrArg AggState.proposals h3) (congrArg AggState.votes h3)

/-! ### C6: event id encoding (`internal/governor/events.go`, `EncodeEventId`)

`EncodeEventId` concatenates `fmt.Sprintf("%019d", toid)` and
`fmt.Sprintf("%010d", eventIndex)` with a hyphen, where `toid` is
`toid.New(int32(ledgerSeq), txIndex, opIndex).ToInt64()` from the Stellar
`toid` package: `ledger << 32 | tx << 12 | op`, with `tx ≤ 2^20 - 1` and
`op ≤ 2^12 - 1` enforced by panics (the ORs of disjoint bit ranges equal
the sum below).  `%0wd` of a non-negative integer is its decimal digits
left-padded with `'0'` to width `w`. -/

def toidToInt64 (ledgerSeq txIndex opIndex : Nat) : Nat :=
  ledgerSeq * 2 ^ 32 + txIndex * 2 ^ 12 + opIndex

def zeroPad (w : Nat) (cs : List Char) : List Char :=
  List.replicate (w - cs.length) '0' ++ cs

/-- `fmt.Sprintf("%0wd", n)` for `n ≥ 0`. -/
def sprintfPadded (w n : Nat) : String := ⟨zeroPad w (natChars n)⟩

def EncodeEventId (ledgerSeq txIndex opIndex eventIndex : Nat) : String :=
  sprintfPadded 19 (toidToInt64 ledgerSeq txIndex opIndex) ++ "-"
    ++ sprintfPadded 10 eventIndex

example : EncodeEventId 1170134 1 0 0 = "0005025687261941760-0000000000" := by decide

lemma natChars_length_le (n : Nat) : ∀ k, 0 < k → n < 10 ^ k →
    (natChars n).length ≤ k := by
  induction n using Nat.strong_induction_on with
  | _ n ih =>
    intro k hk hn
    by_cases h : n < 10
    · rw [natChars_lt10 h]
      simpa using hk
    · rw [natChars_ge10 (le_of_not_lt h)]
      have hk2 : 2 ≤ k := by
        by_contra hc
        have hk1 : k = 1 := by omega
        subst hk1
        simp at hn
        omega
      have hdiv : n / 10 < 10 ^ (k - 1) := by
        rw [Nat.div_lt_iff_lt_mul (by norm_num)]
        calc n < 10 ^ k := hn
        _ = 10 ^ (k - 1) * 10 := by
            rw [← Nat.pow_succ]
            congr 1
            omega
      have hrec := ih (n / 10) (Nat.div_lt_self (by omega) (by norm_num))
        (k - 1) (by omega) hdiv
      simp only [List.length_append, List.length_cons, List.length_nil]
      omega

lemma digitsVal_lt (cs : List Char) (h : allDigits cs = true) :
    digitsVal cs < 10 ^ cs.length := by
  induction cs with
  | nil => simp [digitsVal]
  | cons c cs ih =>
    simp only [allDigits, List.all_cons, Bool.and_eq_true] at h
    have hih : digitsVal cs < 10 ^ cs.length := ih h.2
    have hc : c.toNat - 48 ≤ 9 := by
      have := h.1
      simp only [isDigitChar, Bool.and_eq_true, decide_eq_true_eq] at this
      omega
    have h1 : (c.toNat - 48) * 10 ^ cs.length ≤ 9 * 10 ^ cs.length :=
      Nat.mul_le_mul_right _ hc
    simp only [digitsVal, List.length_cons, Nat.pow_succ]
    omega

lemma digitsVal_replicate_zero (m : Nat) (cs : List Char) :
    digitsVal (List.replicate m '0' ++ cs) = digitsVal cs := by
  induction m with
  | zero => simp
  | succ m ih =>
    rw [List.replicate_succ, List.cons_append]
    simp only [digitsVal, ih]
    norm_num [show ('0'.toNat : Nat) = 48 from rfl]

lemma allDigits_zeroPad (w : Nat) (cs : List Char) (h : allDigits cs = true) :
    allDigits (zeroPad w cs) = true := by
  unfold zeroPad allDigits
  rw [List.all_append, Bool.and_eq_true]
  refine ⟨?_, h⟩
  rw [List.all_eq_true]
  intro c hc
  rw [List.eq_of_mem_replicate hc]
  rfl

lemma length_zeroPad (w : Nat) (cs : List Char) (h : cs.length ≤ w) :
    (zeroPad w cs).length = w := by
  simp only [zeroPad, List.length_append, List.length_replicate]
  omega

lemma char_lt_iff (a b : Char) : a < b ↔ a.toNat < b.toNat := Iff.rfl

lemma char_lt_irrefl (a : Char) : ¬a < a := by
  rw [char_lt_iff]
  exact Nat.lt_irrefl _

lemma char_eq_of_toNat_eq {a b : Char} (h : a.toNat = b.toNat) : a = b :=
  Char.ext (UInt32.ext h)

lemma list_lt_of_digitsVal_lt (xs : List Char) : ∀ ys : List Char,
    allDigits xs = true → allDigits ys = true → xs.length = ys.length →
    digitsVal xs < digitsVal ys → List.lt xs ys := by
  induction xs with
  | nil =>
    intro ys _ _ hlen hv
    cases ys with
    | nil => simp [digitsVal] at hv
    | cons y ys => simp at hlen
  | cons x xs ih =>
    intro ys hax hay hlen hv
    cases ys with
    | nil => simp at hlen
    | cons y ys =>
      have hlen' : xs.length = ys.length := by simpa using hlen
      simp only [allDigits, List.all_cons, Bool.and_eq_true] at hax hay
      have hx48 : 48 ≤ x.toNat ∧ x.toNat ≤ 57 := by
        have := hax.1
        simp only [isDigitChar, Bool.and_eq_true, decide_eq_true_eq] at this
        omega
      have hy48 : 48 ≤ y.toNat ∧ y.toNat ≤ 57 := by
        have := hay.1
        simp only [isDigitChar, Bool.and_eq_true, decide_eq_true_eq] at this
        omega
      rcases Nat.lt_trichotomy x.toNat y.toNat with hlt | heq | hgt
      · exact List.lt.head _ _ ((char_lt_iff x y).2 hlt)
      · obtain rfl : x = y := char_eq_of_toNat_eq heq
        refine List.lt.tail (char_lt_irrefl x) (char_lt_irrefl x) ?_
        refine ih ys hax.2 hay.2 hlen' ?_
        simp only [digitsVal, hlen'] at hv
        omega
      · exfalso
        have hdys : digitsVal ys < 10 ^ ys.length := digitsVal_lt ys hay.2
        simp only [digitsVal, hlen'] at hv
        have hmul : (y.toNat - 48 + 1) * 10 ^ ys.length ≤ (x.toNat - 48) * 10 ^ ys.length :=
          Nat.mul_le_mul_right _ (by omega)
        simp only [Nat.add_mul, Nat.one_mul] at hmul
        omega

lemma list_lt_append_right {xs ys : List Char} (as bs : List Char)
    (h : List.lt xs ys) (hlen : xs.length = ys.length) :
    List.lt (xs ++ as) (ys ++ bs) := by
  induction h with
  | nil b bs' => simp at hlen
  | head as' bs' hab =>
    simp only [List.cons_append]
    exact List.lt.head _ _ hab
  | tail hnab hnba h ih =>
    simp only [List.cons_append]
    exact List.lt.tail hnab hnba (ih (by simpa using hlen))

lemma list_lt_append_left (cs : List Char) {as bs : List Char} (h : List.lt as bs) :
    List.lt (cs ++ as) (cs ++ bs) := by
  induction cs with
  | nil => simpa
  | cons c cs ih =>
    simp only [List.cons_append]
    exact List.lt.tail (char_lt_irrefl c) (char_lt_irrefl c) ih

lemma zeroPad_natChars_lt {w m n : Nat} (hw : 0 < w) (hm : m < 10 ^ w)
    (hn : n < 10 ^ w) (h : m < n) :
    List.lt (zeroPad w (natChars m)) (zeroPad w (natChars n)) := by
  apply list_lt_of_digitsVal_lt
  · exact allDigits_zeroPad w _ (allDigits_natChars m)
  · exact allDigits_zeroPad w _ (allDigits_natChars n)
  · rw [length_zeroPad w _ (natChars_length_le m w hw hm),
      length_zeroPad w _ (natChars_length_le n w hw hn)]
  · unfold zeroPad
    rw [digitsVal_replicate_zero, digitsVal_replicate_zero,
      digitsVal_natChars, digitsVal_natChars]
    exact h

lemma string_data_append (a b : String) : (a ++ b).data = a.data ++ b.data := rfl

/-- C6: `EncodeEventId(0,0,0,0)` is the all-zero id, and for valid inputs
(ledger below `2^31`, tx index below `2^20`, op index below `2^12`, event
index below `2^31`) the id is strictly increasing in the emission order
`(ledger, tx, op, eventIndex)`, under lexicographic string comparison. -/
theorem encodeEventId_spec :
    EncodeEventId 0 0 0 0 = "0000000000000000000-0000000000" ∧
    ∀ l t o i l' t' o' i' : Nat,
      l < 2 ^ 31 → t < 2 ^ 20 → o < 2 ^ 12 → i < 2 ^ 31 →
      l' < 2 ^ 31 → t' < 2 ^ 20 → o' < 2 ^ 12 → i' < 2 ^ 31 →
      (l < l' ∨ (l = l' ∧ (t < t' ∨ (t = t' ∧ (o < o' ∨ (o = o' ∧ i < i')))))) →
      EncodeEventId l t o i < EncodeEventId l' t' o' i' := by
  refine ⟨by decide, ?_⟩
  intro l t o i l' t' o' i' hl ht ho hi hl' ht' ho' hi' hord
  have hT : toidToInt64 l t o < 10 ^ 19 := by
    unfold toidToInt64
    have : l * 2 ^ 32 ≤ (2 ^ 31 - 1) * 2 ^ 32 := Nat.mul_le_mul_right _ (by omega)
    omega
  have hT' : toidToInt64 l' t' o' < 10 ^ 19 := by
    unfold toidToInt64
    have : l' * 2 ^ 32 ≤ (2 ^ 31 - 1) * 2 ^ 32 := Nat.mul_le_mul_right _ (by omega)
    omega
  have hmain : toidToInt64 l t o < toidToInt64 l' t' o' ∨
      (toidToInt64 l t o = toidToInt64 l' t' o' ∧ i < i') := by
    unfold toidToInt64
    rcases hord with h | ⟨rfl, h | ⟨rfl, h | ⟨rfl, h⟩⟩⟩
    · left
      have h1 : (l + 1) * 2 ^ 32 ≤ l' * 2 ^ 32 := Nat.mul_le_mul_right _ (by omega)
      simp only [Nat.add_mul, Nat.one_mul] at h1
      have h2 : t * 2 ^ 12 ≤ (2 ^ 20 - 1) * 2 ^ 12 := Nat.mul_le_mul_right _ (by omega)
      omega
    · left
      have h1 : (t + 1) * 2 ^ 12 ≤ t' * 2 ^ 12 := Nat.mul_le_mul_right _ (by omega)
      simp only [Nat.add_mul, Nat.one_mul] at h1
      omega
    · left
      omega
    · right
      exact ⟨rfl, h⟩
  have hdata : ∀ a b c d : Nat,
      (EncodeEventId a b c d).toList
        = zeroPad 19 (natChars (toidToInt64 a b c))
          ++ ('-' :: zeroPad 10 (natChars d)) := by
    intro a b c d
    simp [EncodeEventId, sprintfPadded, String.toList, string_data_append,
      List.append_assoc, show "-".data = ['-'] from rfl]
  rw [String.lt_iff_toList_lt, hdata, hdata]
  rcases hmain with hlt | ⟨heq, hi2⟩
  · refine (List.lt_iff_lex_lt _ _).1
      (list_lt_append_right _ _ (zeroPad_natChars_lt (by norm_num) hT hT' hlt) ?_)
    rw [length_zeroPad _ _ (natChars_length_le _ 19 (by norm_num) hT),
      length_zeroPad _ _ (natChars_length_le _ 19 (by norm_num) hT')]
  · rw [heq]
    have hpad : List.lt (zeroPad 10 (natChars i)) (zeroPad 10 (natChars i')) :=
      zeroPad_natChars_lt (by norm_num) (by omega) (by omega) hi2
    have step : List.lt ('-' :: zeroPad 10 (natChars i)) ('-' :: zeroPad 10 (natChars i')) :=
      List.lt.tail (char_lt_irrefl '-') (char_lt_irrefl '-') hpad
    exact (List.lt_iff_lex_lt _ _).1 (list_lt_append_left _ step)

/-- C6 witness: a later event in the same ledger compares greater. -/
theorem encodeEventId_spec_witness :
    EncodeEventId 1170134 1 0 2 < EncodeEventId 1170134 2 0 0 :=
  encodeEventId_spec.2 1170134 1 0 2 1170134 2 0 0
    (by norm_num) (by norm_num) (by norm_num) (by norm_num)
    (by norm_num) (by norm_num) (by norm_num) (by norm_num)
    (Or.inr ⟨rfl, Or.inl (by norm_num)⟩)

/-! ### Event decoding (`internal/governor/events.go`)

`ScVal` models the Soroban contract-event value alphabet as far as the
decoders inspect it (`GetU32`, `GetI128`, `GetSym`, `GetStr`, `GetAddress`,
`GetVec`, `GetMap`; `.other` stands for every further XDR discriminant).
The two error values mirror `ErrInvalidEventFormat` (FormatError) and
`ErrEventParsingFailed` (ParsingError). -/

inductive ScVal where
  | u32 (v : Nat)
  | i128 (v : Int)
  | sym (s : String)
  | str (s : String)
  | address (a : String)
  | vec (entries : List ScVal)
  | map (entries : List (ScVal × ScVal))
  | other

inductive GovError where
  | formatError
  | parsingError
deriving DecidableEq, Repr

mutual

/-- Models `entry.MarshalBinary()` followed by base64: a total encoding of
the XDR value.  `MarshalBinary` never fails on the well-formed values that
`ScVal` ranges over, and the produced bytes are opaque to the rest of the
system, so only totality and determinism matter here. -/
def scValEncodeV : ScVal → List Char
  | .u32 n => 'u' :: natChars n
  | .i128 i => 'i' :: (intToString i).data
  | .sym s => 's' :: s.data
  | .str s => 't' :: s.data
  | .address a => 'a' :: a.data
  | .other => ['o']
  | .vec es => 'v' :: scValEncodeL es
  | .map es => 'm' :: scValEncodeP es

def scValEncodeL : List ScVal → List Char
  | [] => []
  | v :: vs => scValEncodeV v ++ scValEncodeL vs

def scValEncodeP : List (ScVal × ScVal) → List Char
  | [] => []
  | (k, v) :: ps => scValEncodeV k ++ scValEncodeV v ++ scValEncodeP ps

end

def scValEncode (v : ScVal) : String := ⟨'b' :: scValEncodeV v⟩

/-- `NewProposalCreatedDataFromEventBody`: 3 topics with `topic[2]` an
address, data an ordered 5-tuple.  A body that is not a vec, or has a wrong
length (or wrong topic shape), is `ErrInvalidEventFormat`; a positional type
mismatch at entries 0, 1, 3, 4 is `ErrEventParsingFailed`; entry 2 is
marshalled as opaque bytes and never mismatches. -/
def decodeProposalCreated (topics : List ScVal) (data : ScVal) :
    Except GovError ProposalCreatedData :=
  match topics with
  | [_t0, _t1, t2] =>
    match t2 with
    | .address proposer =>
      match data with
      | .vec [e0, e1, e2, e3, e4] =>
        match e0 with
        | .str title =>
          match e1 with
          | .str desc =>
            match e3 with
            | .u32 voteStart =>
              match e4 with
              | .u32 voteEnd =>
                .ok { proposer := proposer, title := title, desc := desc,
                      action := scValEncode e2, voteStart := voteStart,
                      voteEnd := voteEnd }
              | _ => .error .parsingError
            | _ => .error .parsingError
          | _ => .error .parsingError
        | _ => .error .parsingError
      | .vec _ => .error .formatError
      | _ => .error .formatError
    | _ => .error .formatError
  | _ => .error .formatError

/-- The loop body of `NewVoteCountFromXDR`: fold the map entries into the
three fields, rejecting non-symbol keys, unrecognized keys and non-i128
values; after the loop reject if any field was never set. -/
def voteCountLoop : List (ScVal × ScVal) → VoteCount → Option VoteCount
  | [], vc =>
    if vc.forVotes = "" ∨ vc.against = "" ∨ vc.abstain = "" then none else some vc
  | entry :: rest, vc =>
    match entry.1 with
    | .sym k =>
      if k = "_for" then
        match entry.2 with
        | .i128 v => voteCountLoop rest { vc with forVotes := intToString v }
        | _ => none
      else if k = "against" then
        match entry.2 with
        | .i128 v => voteCountLoop rest { vc with against := intToString v }
        | _ => none
      else if k = "abstain" then
        match entry.2 with
        | .i128 v => voteCountLoop rest { vc with abstain := intToString v }
        | _ => none
      else none
    | _ => none

/-- `NewVoteCountFromXDR`. -/
def voteCountFromXDR (data : ScVal) : Option VoteCount :=
  match data with
  | .map entries => voteCountLoop entries { forVotes := "", against := "", abstain := "" }
  | _ => none

/-- `NewProposalVotingClosedDataFromEventBody`: 4 topics with `topic[2]`,
`topic[3]` u32; any `NewVoteCountFromXDR` failure is wrapped in
`ErrEventParsingFailed`. -/
def decodeProposalVotingClosed (topics : List ScVal) (data : ScVal) :
    Except GovError ProposalVotingClosedData :=
  match topics with
  | [_t0, _t1, t2, t3] =>
    match t2 with
    | .u32 status =>
      match t3 with
      | .u32 eta =>
        match voteCountFromXDR data with
        | none => .error .parsingError
        | some fv => .ok { status := status, eta := eta, finalVotes := fv }
      | _ => .error .formatError
    | _ => .error .formatError
  | _ => .error .formatError

/-! ### C7: `proposal_created` payload decoding -/

/-- C7 counterexample: a payload that is an ordered sequence of the wrong
length (2 instead of 5) fails with FormatError (`ErrInvalidEventFormat`),
not ParsingError — so ingestion skips it silently instead of logging it. -/
theorem decodeProposalCreated_length_counterexample :
    decodeProposalCreated [.sym "proposal_created", .u32 0, .address "GADDR"]
      (.vec [.str "t", .str "d"])
      = .error .formatError ∧
    (Except.error GovError.formatError : Except GovError ProposalCreatedData)
      ≠ .error .parsingError :=
  ⟨rfl, fun h => GovError.noConfusion (Except.error.inj h)⟩

/-- C7 (amended): with well-formed topics, a payload that is not an ordered
sequence or whose length differs from 5 fails with FormatError; a sequence
of length 5 with a type mismatch at position 0, 1, 3 or 4 fails with
ParsingError; position 2 (the action) accepts any value, and a fully
well-typed payload decodes to the expected record. -/
theorem decodeProposalCreated_spec (t0 t1 : ScVal) (p : String) (data : ScVal) :
    ((∀ es, data = ScVal.vec es → es.length ≠ 5) →
      decodeProposalCreated [t0, t1, .address p] data = .error .formatError) ∧
    (∀ e0 e1 e2 e3 e4, data = ScVal.vec [e0, e1, e2, e3, e4] →
      (((∀ s, e0 ≠ .str s) ∨ (∀ s, e1 ≠ .str s) ∨ (∀ v, e3 ≠ .u32 v) ∨
          (∀ v, e4 ≠ .u32 v)) →
        decodeProposalCreated [t0, t1, .address p] data = .error .parsingError) ∧
      (∀ ti de vs ve, e0 = .str ti → e1 = .str de → e3 = .u32 vs → e4 = .u32 ve →
        decodeProposalCreated [t0, t1, .address p] data
          = .ok { proposer := p, title := ti, desc := de,
                  action := scValEncode e2, voteStart := vs, voteEnd := ve })) := by
  constructor
  · intro h
    cases data with
    | vec es =>
      rcases es with _ | ⟨e0, _ | ⟨e1, _ | ⟨e2, _ | ⟨e3, _ | ⟨e4, _ | ⟨e5, rest⟩⟩⟩⟩⟩⟩
      · rfl
      · rfl
      · rfl
      · rfl
      · rfl
      · exact absurd (by simp) (h [e0, e1, e2, e3, e4] rfl)
      · rfl
    | u32 v => rfl
    | i128 v => rfl
    | sym s => rfl
    | str s => rfl
    | address a => rfl
    | map es => rfl
    | other => rfl
  · intro e0 e1 e2 e3 e4 hdata
    subst hdata
    constructor
    · intro hbad
      rcases hbad with hb | hb | hb | hb
      · cases e0 <;> first
          | rfl
          | exact absurd rfl (hb _)
      · cases e0 <;> try rfl
        cases e1 <;> first
          | rfl
          | exact absurd rfl (hb _)
      · cases e0 <;> try rfl
        cases e1 <;> try rfl
        cases e3 <;> first
          | rfl
          | exact absurd rfl (hb _)
      · cases e0 <;> try rfl
        cases e1 <;> try rfl
        cases e3 <;> try rfl
        cases e4 <;> first
          | rfl
          | exact absurd rfl (hb _)
    · intro ti de vs ve h0 h1 h3 h4
      subst h0; subst h1; subst h3; subst h4
      rfl

/-- C7 witness: a type mismatch at position 1 is a ParsingError, and a
well-typed 5-tuple decodes. -/
theorem decodeProposalCreated_spec_witness :
    decodeProposalCreated [.sym "proposal_created", .u32 0, .address "GADDR"]
      (.vec [.str "ttl", .u32 9, .other, .u32 1, .u32 2])
      = .error .parsingError ∧
    decodeProposalCreated [.sym "proposal_created", .u32 0, .address "GADDR"]
      (.vec [.str "ttl", .str "dsc", .other, .u32 1, .u32 2])
      = .ok { proposer := "GADDR", title := "ttl", desc := "dsc",
              action := scValEncode .other, voteStart := 1, voteEnd := 2 } :=
  ⟨((decodeProposalCreated_spec (.sym "proposal_created") (.u32 0) "GADDR"
      (.vec [.str "ttl", .u32 9, .other, .u32 1, .u32 2])).2
      (.str "ttl") (.u32 9) .other (.u32 1) (.u32 2) rfl).1
      (Or.inr (Or.inl (fun s h => by cases h))),
   ((decodeProposalCreated_spec (.sym "proposal_created") (.u32 0) "GADDR"
      (.vec [.str "ttl", .str "dsc", .other, .u32 1, .u32 2])).2
      (.str "ttl") (.str "dsc") .other (.u32 1) (.u32 2) rfl).2
      "ttl" "dsc" 1 2 rfl rfl rfl rfl⟩

/-! ### C8: `proposal_voting_closed` payload decoding -/

/-- An entry the `NewVoteCountFromXDR` loop accepts: a symbol key among
`_for`/`against`/`abstain` with an i128 value. -/
def goodEntryB (e : ScVal × ScVal) : Bool :=
  match e with
  | (.sym k, .i128 _) => k = "_for" || k = "against" || k = "abstain"
  | _ => false

def isSymKey (k : String) (p : ScVal × ScVal) : Bool :=
  match p.1 with
  | .sym q => q = k
  | _ => false

def hasKeySymB (es : List (ScVal × ScVal)) (k : String) : Bool := es.any (isSymKey k)

/-- C8 counterexample: a map with a duplicate `_for` key decodes
successfully (the last occurrence wins) instead of failing with a
ParsingError. -/
theorem voteCount_duplicate_key_counterexample :
    decodeProposalVotingClosed
      [.sym "proposal_voting_closed", .u32 1, .u32 2, .u32 0]
      (.map [(.sym "_for", .i128 1), (.sym "_for", .i128 2),
             (.sym "against", .i128 3), (.sym "abstain", .i128 4)])
      = .ok { status := 2, eta := 0,
              finalVotes := { forVotes := "2", against := "3", abstain := "4" } } := by
  rfl

lemma voteCountLoop_bad : ∀ (es : List (ScVal × ScVal)) (vc : VoteCount),
    (∃ e ∈ es, goodEntryB e = false) → voteCountLoop es vc = none := by
  intro es
  induction es with
  | nil =>
    intro vc h
    simp at h
  | cons e rest ih =>
    intro vc h
    obtain ⟨ek, ev⟩ := e
    by_cases hg : goodEntryB (ek, ev) = true
    · have hrest : ∃ e ∈ rest, goodEntryB e = false := by
        obtain ⟨e', he', hb⟩ := h
        rcases List.mem_cons.1 he' with rfl | hin
        · rw [hg] at hb
          cases hb
        · exact ⟨e', hin, hb⟩
      cases ek <;> simp [goodEntryB] at hg
      rename_i k
      cases ev <;> simp [goodEntryB] at hg
      rename_i v
      rcases hg with (rfl | rfl) | rfl
      · simp only [voteCountLoop, if_pos rfl]
        exact ih _ hrest
      · simp [voteCountLoop]
        exact ih _ hrest
      · simp [voteCountLoop]
        exact ih _ hrest
    · rw [Bool.not_eq_true] at hg
      cases ek with
      | sym k =>
        cases ev with
        | i128 v =>
          simp [goodEntryB] at hg
          obtain ⟨⟨h1, h2⟩, h3⟩ := hg
          simp [voteCountLoop, h1, h2, h3]
        | u32 v =>
          by_cases h1 : k = "_for" <;> by_cases h2 : k = "against" <;>
            by_cases h3 : k = "abstain" <;> simp [voteCountLoop, h1, h2, h3]
        | sym s =>
          by_cases h1 : k = "_for" <;> by_cases h2 : k = "against" <;>
            by_cases h3 : k = "abstain" <;> simp [voteCountLoop, h1, h2, h3]
        | str s =>
          by_cases h1 : k = "_for" <;> by_cases h2 : k = "against" <;>
            by_cases h3 : k = "abstain" <;> simp [voteCountLoop, h1, h2, h3]
        | address a =>
          by_cases h1 : k = "_for" <;> by_cases h2 : k = "against" <;>
            by_cases h3 : k = "abstain" <;> simp [voteCountLoop, h1, h2, h3]
        | vec es' =>
          by_cases h1 : k = "_for" <;> by_cases h2 : k = "against" <;>
            by_cases h3 : k = "abstain" <;> simp [voteCountLoop, h1, h2, h3]
        | map es' =>
          by_cases h1 : k = "_for" <;> by_cases h2 : k = "against" <;>
            by_cases h3 : k = "abstain" <;> simp [voteCountLoop, h1, h2, h3]
        | other =>
          by_cases h1 : k = "_for" <;> by_cases h2 : k = "against" <;>
            by_cases h3 : k = "abstain" <;> simp [voteCountLoop, h1, h2, h3]
      | u32 v => simp [voteCountLoop]
      | i128 v => simp [voteCountLoop]
      | str s => simp [voteCountLoop]
      | address a => simp [voteCountLoop]
      | vec es' => simp [voteCountLoop]
      | map es' => simp [voteCountLoop]
      | other => simp [voteCountLoop]

lemma voteCountLoop_missing : ∀ (es : List (ScVal × ScVal)) (vc : VoteCount),
    (∀ e ∈ es, goodEntryB e = true) →
    ((hasKeySymB es "_for" = false ∧ vc.forVotes = "") ∨
     (hasKeySymB es "against" = false ∧ vc.against = "") ∨
     (hasKeySymB es "abstain" = false ∧ vc.abstain = "")) →
    voteCountLoop es vc = none := by
  intro es
  induction es with
  | nil =>
    intro vc _ h
    rcases h with ⟨-, h⟩ | ⟨-, h⟩ | ⟨-, h⟩ <;> simp [voteCountLoop, h]
  | cons e rest ih =>
    intro vc hall h
    obtain ⟨ek, ev⟩ := e
    have hg := hall (ek, ev) (by simp)
    have hrest : ∀ e ∈ rest, goodEntryB e = true :=
      fun e he => hall e (List.mem_cons_of_mem _ he)
    cases ek <;> simp [goodEntryB] at hg
    rename_i k
    cases ev <;> simp [goodEntryB] at hg
    rename_i v
    rcases hg with (rfl | rfl) | rfl
    · simp only [voteCountLoop, if_pos rfl]
      apply ih _ hrest
      rcases h with ⟨hno, hf⟩ | ⟨hno, hf⟩ | ⟨hno, hf⟩
      · exfalso
        simp [hasKeySymB, isSymKey] at hno
      · refine Or.inr (Or.inl ⟨?_, hf⟩)
        simp [hasKeySymB, List.any_cons] at hno ⊢
        exact hno.2
      · refine Or.inr (Or.inr ⟨?_, hf⟩)
        simp [hasKeySymB, List.any_cons] at hno ⊢
        exact hno.2
    · simp [voteCountLoop]
      apply ih _ hrest
      rcases h with ⟨hno, hf⟩ | ⟨hno, hf⟩ | ⟨hno, hf⟩
      · refine Or.inl ⟨?_, hf⟩
        simp [hasKeySymB, List.any_cons] at hno ⊢
        exact hno.2
      · exfalso
        simp [hasKeySymB, isSymKey] at hno
      · refine Or.inr (Or.inr ⟨?_, hf⟩)
        simp [hasKeySymB, List.any_cons] at hno ⊢
        exact hno.2
    · simp [voteCountLoop]
      apply ih _ hrest
      rcases h with ⟨hno, hf⟩ | ⟨hno, hf⟩ | ⟨hno, hf⟩
      · refine Or.inl ⟨?_, hf⟩
        simp [hasKeySymB, List.any_cons] at hno ⊢
        exact hno.2
      · refine Or.inr (Or.inl ⟨?_, hf⟩)
        simp [hasKeySymB, List.any_cons] at hno ⊢
        exact hno.2
      · exfalso
        simp [hasKeySymB, isSymKey] at hno

/-- C8 (amended): with well-formed topics, a payload that is not a keyed
map, or contains a non-symbol key, an unrecognized key, or a non-i128
value, or whose entries never set one of `_for`/`against`/`abstain`
(missing key), fails with ParsingError; duplicate recognized keys are
accepted, the last occurrence winning. -/
theorem decodeVotingClosed_spec (t0 t1 : ScVal) (status eta : Nat) (data : ScVal) :
    ((∀ es, data ≠ ScVal.map es) →
      decodeProposalVotingClosed [t0, t1, .u32 status, .u32 eta] data
        = .error .parsingError) ∧
    (∀ es, data = ScVal.map es →
      ((∃ e ∈ es, goodEntryB e = false) →
        decodeProposalVotingClosed [t0, t1, .u32 status, .u32 eta] data
          = .error .parsingError) ∧
      ((∀ e ∈ es, goodEntryB e = true) →
        (hasKeySymB es "_for" = false ∨ hasKeySymB es "against" = false ∨
          hasKeySymB es "abstain" = false) →
        decodeProposalVotingClosed [t0, t1, .u32 status, .u32 eta] data
          = .error .parsingError)) := by
  constructor
  · intro h
    cases data with
    | map es => exact absurd rfl (h es)
    | u32 v => rfl
    | i128 v => rfl
    | sym s => rfl
    | str s => rfl
    | address a => rfl
    | vec es => rfl
    | other => rfl
  · intro es hdata
    subst hdata
    constructor
    · intro hbad
      have hloop := voteCountLoop_bad es ⟨"", "", ""⟩ hbad
      simp [decodeProposalVotingClosed, voteCountFromXDR, hloop]
    · intro hall hmiss
      have hloop := voteCountLoop_missing es ⟨"", "", ""⟩ hall (by
        rcases hmiss with h | h | h
        · exact Or.inl ⟨h, rfl⟩
        · exact Or.inr (Or.inl ⟨h, rfl⟩)
        · exact Or.inr (Or.inr ⟨h, rfl⟩))
      simp [decodeProposalVotingClosed, voteCountFromXDR, hloop]

/-- C8 witness: a map missing the `_for` key fails with ParsingError. -/
theorem decodeVotingClosed_spec_witness :
    decodeProposalVotingClosed
      [.sym "proposal_voting_closed", .u32 1, .u32 2, .u32 0]
      (.map [(.sym "against", .i128 3), (.sym "abstain", .i128 4)])
      = .error .parsingError :=
  ((decodeVotingClosed_spec (.sym "proposal_voting_closed") (.u32 1) 2 0
      (.map [(.sym "against", .i128 3), (.sym "abstain", .i128 4)])).2
      [(.sym "against", .i128 3), (.sym "abstain", .i128 4)] rfl).2
    (by decide) (Or.inl (by decide))

end Governor
